import Mathlib

/-!
# bzeron/process: supervision engine

A shallow embedding of `event.go`, `process.go`, `operate.go`, `manager.go` and
the signal command of `cmd/main.go`.

Conventions of the embedding.

* Every call that leaves the package (the operating system, the clock, the
  uuid and cron libraries, the Go scheduler) is answered by an `Env`, a record
  of oracles indexed by the number of external calls made so far, so any
  sequence of answers can be represented.  The mutable part of the outside
  world is a `World`: the call counter, the trace of effects performed, the
  watcher goroutines still blocked in `Wait` and the goroutines of `Manager.do`
  that are still to call `failed`.
* A `*Process` is modelled by its value; a function that mutates the object
  returns the new value, and `Manager.write` stores it back into the registry
  slot it was read from.
* Each method body that runs under `p.m` is one atomic function.  The watcher
  goroutine of `Process.start` is the separate function `Process.watcher`,
  whose `Wait` result is an input.
* `operateChannel` is a queue; `Manager.Run` is driven by a schedule that says
  when some goroutine calls `Manager.Operate`, which branch the `select` of the
  loop takes, and when a goroutine left behind by `Manager.do` runs.
* `Manager.startProcess` makes its `isRunning` test and its `start` in two lock
  sections; `Manager.startProcessTest` and `Manager.startProcessRest` are the
  two sections, for the runs in which another goroutine acts in between.
-/

namespace process

/-! ## event.go -/

/-- The Go type `kind` (a string) with its two constants. -/
inductive kind where
  | eventKindErr
  | eventKindData
  deriving DecidableEq, Repr

/-- The string value of a `kind` constant. -/
def kind.String : kind → String
  | .eventKindErr => "error"
  | .eventKindData => "info"

/-- The Go struct `event`; `time` is the reading of `time.Now()` in nanoseconds. -/
structure event where
  time : Int
  kind : kind
  message : String
  deriving DecidableEq, Repr

/-! ## container/ring, as used by process.go -/

/-- A `*ring.Ring` of events: the elements of the circular list, starting at the
element the pointer designates.  A `nil` value is `none`. -/
structure Ring where
  elems : List (Option event)
  deriving DecidableEq, Repr

/-- The Go `ring.New(n)`: n elements, all values nil. -/
def Ring.New (n : Nat) : Ring := ⟨List.replicate n none⟩

/-- The Go `r.Len()`. -/
def Ring.Len (r : Ring) : Nat := r.elems.length

/-- The Go `r.Next()`: the pointer moves to the following element. -/
def Ring.Next (r : Ring) : Ring := ⟨r.elems.rotate 1⟩

/-- The Go `r.Value`. -/
def Ring.Value (r : Ring) : Option event := r.elems.headD none

/-- The Go assignment `r.Value = v`. -/
def Ring.setValue (r : Ring) (v : Option event) : Ring :=
  match r.elems with
  | [] => ⟨[]⟩
  | _ :: t => ⟨v :: t⟩

/-! ## The outside world -/

/-- A `syscall.Signal` (an int). -/
abbrev Signal := Nat

/-- The Linux value of `syscall.SIGKILL`. -/
def SIGKILL : Signal := 9

/-- The Linux value of `syscall.SIGTERM`. -/
def SIGTERM : Signal := 15

/-- A `time.Duration` in nanoseconds. -/
abbrev Duration := Int

/-- The Go constant `time.Second`. -/
def Second : Duration := 1000000000

/-- An `*os.File`: the name it was opened under and the index of the call that opened it. -/
structure File where
  name : String
  fd : Nat
  deriving DecidableEq, Repr

/-- An `*os.Process` handle. -/
structure OsProcess where
  Pid : Int
  deriving DecidableEq, Repr

/-- An `*os.ProcessState`: what its `ExitCode()` and `String()` methods return. -/
structure ProcessState where
  exitCode : Int
  str : String
  deriving DecidableEq, Repr

/-- The Go struct `Attributes`. -/
structure Attributes where
  dir : String
  cmd : String
  argv : List String
  env : List String
  files : List String
  restart : Bool
  cron : String
  deriving DecidableEq, Repr

/-- One interaction with the operating system or with a library that keeps state. -/
inductive Effect where
  | openFile (name : String) (ok : Bool)
  | closeFile (f : File)
  | startProcess (a : Attributes) (files : List File) (pid : Option Int)
  | signal (pid : Int) (s : Signal) (ok : Bool)
  deriving DecidableEq, Repr

/-- The watcher goroutine launched by `Process.start`, blocked in `process.Wait()`:
the process object it is bound to (named by its uuid) and the two arguments
`process` and `files` it was called with. -/
structure Watcher where
  uuid : String
  process : OsProcess
  files : List File
  deriving DecidableEq, Repr

/-- The Go struct `Process` without its lock and its back pointer to the manager. -/
structure Process where
  uuid : String
  attributes : Attributes
  process : Option OsProcess
  processState : Option ProcessState
  files : List File
  events : Ring
  deriving DecidableEq, Repr

/-- A goroutine of `Manager.do` that has taken the timer branch of its `select`
and has not called `failed` yet when `do` returns.  In `stopProcess`, `failed` is
`process.signal(SIGKILL)` on the process object named by `uuid`; `object` is that
object as it was when `do` returned, for the case that it has left the registry
when the goroutine runs. -/
structure Escalation where
  uuid : String
  object : Process
  deriving DecidableEq, Repr

/-- The mutable part of the outside world: how many external calls have been
answered, the effects performed so far (oldest first), the watcher goroutines
that have not returned from `Wait` yet, and the goroutines of `Manager.do` that
have yet to call `failed`. -/
structure World where
  calls : Nat
  trace : List Effect
  watchers : List Watcher
  escalations : List Escalation
  deriving DecidableEq, Repr

/-- An external call without a recorded effect (a clock or uuid reading). -/
def World.step (w : World) : World := { w with calls := w.calls + 1 }

/-- An external call with its effect. -/
def World.call (w : World) (e : Effect) : World :=
  { w with calls := w.calls + 1, trace := w.trace ++ [e] }

/-- The Go statement `go func(process, files) ...` of `Process.start`. -/
def World.go (w : World) (g : Watcher) : World := { w with watchers := w.watchers ++ [g] }

/-- The goroutine of `Manager.do` is still to call `failed` when `do` returns. -/
def World.later (w : World) (e : Escalation) : World :=
  { w with escalations := w.escalations ++ [e] }

/-- What the scheduler does with the goroutine of `Manager.do` when the timer has
fired before the deferred `cancel()` and `t.Stop()` have run.  The goroutine is
started before `handler()` is called and nothing waits for it. -/
inductive DoSchedule where
  /-- The `select` takes the `ctx.Done()` branch. -/
  | cancelled
  /-- The timer branch; `failed` takes the lock of the process before `handler` does. -/
  | before
  /-- The timer branch; `failed` takes the lock after `handler` and before the
  caller of `do` goes on. -/
  | after
  /-- The timer branch; `failed` has not taken the lock yet when `do` returns. -/
  | later
  deriving DecidableEq, Repr

/-- The answers of everything outside the package.  The first argument of an
oracle is the index of the external call (`World.calls`). -/
structure Env where
  /-- The reading of `time.Now()`. -/
  now : Nat → Int
  /-- The result of `uuid.New().String()`. -/
  uuidNew : Nat → String
  /-- The error of `os.OpenFile` on a name, `none` on success. -/
  openFile : Nat → String → Option String
  /-- The result of `os.StartProcess`: an error or the pid of the new process. -/
  startProcess : Nat → Attributes → List File → Except String Int
  /-- The error of `(*os.Process).Signal`, `none` on success. -/
  signal : Nat → Int → Signal → Option String
  /-- The scheduling of the goroutine of `Manager.do` when its timer has fired. -/
  doSchedule : Nat → DoSchedule
  /-- Whether `cron.AddFunc` accepts the expression. -/
  cronParse : String → Bool
  /-- The Go `syscall.Signal.String()`. -/
  sigString : Signal → String
  /-- The Go `Time.Format(time.RFC3339)`. -/
  formatTime : Int → String

/-! ## process.go -/

/-- The Go method `Process.isRunning`. -/
def Process.isRunning (p : Process) : Bool :=
  p.process.isSome && p.processState.isNone

/-- The Go method `Process.pushEvent`; `now` is the reading of `time.Now()`. -/
def Process.pushEvent (p : Process) (now : Int) (k : kind) (message : String) : Process :=
  { p with events := (p.events.setValue (some ⟨now, k, message⟩)).Next }

/-- The Go `%v` of a string slice. -/
def fmtStrings (l : List String) : String := "[" ++ " ".intercalate l ++ "]"

/-- The Go method `Process.openFiles`: the loop over the names not yet opened,
`files` being the handles collected so far. -/
def Process.openFiles (env : Env) : List String → List File → World → Except String (List File) × World
  | [], files, w => (.ok files, w)
  | file :: names, files, w =>
    match env.openFile w.calls file with
    | some err => (.error err, w.call (.openFile file false))
    | none => Process.openFiles env names (files ++ [⟨file, w.calls⟩]) (w.call (.openFile file true))

/-- The Go method `Process.closeFiles`. -/
def Process.closeFiles : List File → World → World
  | [], w => w
  | file :: files, w => Process.closeFiles files (w.call (.closeFile file))

/-- The Go method `Process.start`; the goroutine it launches is added to the world. -/
def Process.start (env : Env) (p : Process) (w : World) : Process × World :=
  match Process.openFiles env p.attributes.files [] w with
  | (.error err, w1) =>
    (p.pushEvent (env.now w1.calls) .eventKindErr
      ("process: " ++ p.uuid ++ ", open file: " ++ fmtStrings p.attributes.files ++ ", failed: " ++ err),
     w1.step)
  | (.ok files, w1) =>
    let p1 := { p with files := files }
    let p2 := p1.pushEvent (env.now w1.calls) .eventKindData
      ("process: " ++ p.uuid ++ ", open file: " ++ fmtStrings p.attributes.files ++ " success")
    let w2 := w1.step
    match env.startProcess w2.calls p.attributes files with
    | .error err =>
      let w3 := w2.call (.startProcess p.attributes files none)
      (p2.pushEvent (env.now w3.calls) .eventKindErr
        ("process: " ++ p.uuid ++ ", start failed: " ++ err), w3.step)
    | .ok pid =>
      let w3 := w2.call (.startProcess p.attributes files (some pid))
      let p3 := { p2 with process := some ⟨pid⟩, processState := none }
      let p4 := p3.pushEvent (env.now w3.calls) .eventKindData
        ("process: " ++ p.uuid ++ ", start success, pid: " ++ toString pid)
      (p4, (w3.step).go ⟨p.uuid, ⟨pid⟩, files⟩)

/-- The Go method `Process.signal`. -/
def Process.signal (env : Env) (s : Signal) (p : Process) (w : World) : Process × World :=
  match p.process with
  | none => (p, w)
  | some process =>
    match env.signal w.calls process.Pid s with
    | some err =>
      let w1 := w.call (.signal process.Pid s false)
      (p.pushEvent (env.now w1.calls) .eventKindErr
        ("process: " ++ p.uuid ++ ", signal " ++ env.sigString s ++ " failed: " ++ err), w1.step)
    | none =>
      let w1 := w.call (.signal process.Pid s true)
      (p.pushEvent (env.now w1.calls) .eventKindData
        ("process: " ++ p.uuid ++ ", signal " ++ env.sigString s ++ " success, pid: "
          ++ toString process.Pid), w1.step)

/-- The Go struct `Metadata`. -/
structure Metadata where
  UUID : String
  Pid : Int
  Alive : Bool
  Dir : String
  Cmd : String
  Argv : List String
  Env : List String
  Files : List String
  Restart : Bool
  Cron : String
  Events : List String
  ExitCode : Int
  ExitData : String
  deriving DecidableEq, Repr

/-- The line `metadata` renders for one event. -/
def fmtEvent (env : Env) (e : event) : String :=
  env.formatTime e.time ++ " " ++ e.kind.String ++ " " ++ e.message

/-- The event loop of `Process.metadata`: `n` iterations remain (`Len()` is the
same at every iteration, since `Next` keeps the length). -/
def Process.metadataLoop (env : Env) : Nat → Ring → List String → Ring × List String
  | 0, r, acc => (r, acc)
  | n + 1, r, acc =>
    Process.metadataLoop env n r.Next
      (match r.Value with
       | some e => acc ++ [fmtEvent env e]
       | none => acc)

/-- The Go method `Process.metadata`: the process afterwards (its ring pointer
has been moved), the world afterwards, and the snapshot. -/
def Process.metadata (env : Env) (p : Process) (w : World) : Process × World × Metadata :=
  let probe : Int × Bool × World :=
    match p.process with
    | none => (-1, false, w)
    | some process =>
      let ok := (env.signal w.calls process.Pid 0).isNone
      (process.Pid, ok, w.call (.signal process.Pid 0 ok))
  let code : Int × String :=
    match p.processState with
    | none => (0, "")
    | some st => (st.exitCode, st.str)
  let loop := Process.metadataLoop env p.events.Len p.events []
  ({ p with events := loop.1 }, probe.2.2,
   { UUID := p.uuid, Pid := probe.1, Alive := probe.2.1,
     Dir := p.attributes.dir, Cmd := p.attributes.cmd, Argv := p.attributes.argv,
     Env := p.attributes.env, Files := p.attributes.files,
     Restart := p.attributes.restart, Cron := p.attributes.cron,
     Events := loop.2, ExitCode := code.1, ExitData := code.2 })

/-! ## operate.go -/

/-- The Go struct `OperateStart`. -/
structure OperateStart where
  Dir : String
  Cmd : String
  Argv : List String
  Env : List String
  Files : List String
  Restart : Bool
  Cron : String
  deriving DecidableEq, Repr

/-- The Go struct `OperateKill`. -/
structure OperateKill where
  UUID : String
  Prune : Bool
  deriving DecidableEq, Repr

/-- The Go struct `OperateStop`. -/
structure OperateStop where
  UUID : String
  Gracefully : Duration
  Prune : Bool
  deriving DecidableEq, Repr

/-- The Go struct `OperateRestart`. -/
structure OperateRestart where
  UUID : String
  Gracefully : Duration
  deriving DecidableEq, Repr

/-- The Go struct `OperateSignal`. -/
structure OperateSignal where
  UUID : String
  Signal : Signal
  deriving DecidableEq, Repr

/-- A value sent on `operateChannel` (an `interface{}`): one of the five command
types, or a value of any other type. -/
inductive Operate where
  | Start (opt : OperateStart)
  | Kill (opt : OperateKill)
  | Stop (opt : OperateStop)
  | Restart (opt : OperateRestart)
  | Signal (opt : OperateSignal)
  | other
  deriving DecidableEq, Repr

/-- The body of the watcher goroutine of `Process.start` once `process.Wait()`
has returned `res`: the process and the world afterwards, and the command its
first deferred function submits with `Manager.Operate`, if any. -/
def Process.watcher (env : Env) (p : Process) (process : OsProcess) (files : List File)
    (res : Except String ProcessState) (w : World) : Process × World × Option Operate :=
  let submit : Option Operate :=
    if p.attributes.restart then some (.Restart ⟨p.uuid, Second⟩) else none
  match res with
  | .error err =>
    let p1 := p.pushEvent (env.now w.calls) .eventKindErr
      ("process: " ++ p.uuid ++ ", wait failed: " ++ err)
    (p1, Process.closeFiles files w.step, submit)
  | .ok processState =>
    let p1 := p.pushEvent (env.now w.calls) .eventKindData
      ("process: " ++ p.uuid ++ ", wait success, pid: " ++ toString process.Pid)
    let p2 := { p1 with processState := some processState }
    (p2, Process.closeFiles files w.step, submit)

/-! ## manager.go -/

/-- The Go struct `Manager` without its lock: the registry, the commands waiting
in `operateChannel` (oldest first), and the entries registered with the cron
library (the expression and the uuid of the process the callback captured). -/
structure Manager where
  processes : String → Option Process
  operateChannel : List Operate
  cron : List (String × String)

/-- The Go function `NewManager`. -/
def NewManager : Manager := { processes := fun _ => none, operateChannel := [], cron := [] }

/-- The registry slot `key` points to an object that now has the value `p`. -/
def Manager.write (m : Manager) (key : String) (p : Process) : Manager :=
  { m with processes := fun k => if k = key then some p else m.processes k }

/-- The Go method `Manager.createProcess` (its error is always nil). -/
def Manager.createProcess (env : Env) (m : Manager) (dir cmd : String)
    (argv envs files : List String) (restart : Bool) (cron : String) (w : World) :
    Process × Manager × World :=
  let process : Process :=
    { uuid := env.uuidNew w.calls,
      attributes :=
        { dir := dir, cmd := cmd, argv := argv, env := envs, files := files,
          restart := restart, cron := cron },
      process := none,
      processState := none,
      files := [],
      events := Ring.New 10 }
  (process, m.write process.uuid process, w.step)

/-- The Go method `Manager.searchProcess`; `none` is the not-found error. -/
def Manager.searchProcess (m : Manager) (uuid : String) : Option Process :=
  m.processes uuid

/-- The Go method `Manager.removeProcess`. -/
def Manager.removeProcess (m : Manager) (uuid : String) : Manager :=
  { m with processes := fun k => if k = uuid then none else m.processes k }

/-- The first lock section of `Manager.startProcess`: the call `process.isRunning()`. -/
def Manager.startProcessTest (process : Process) : Bool := process.isRunning

/-- The rest of `Manager.startProcess` once the test has returned `running`: the
method returns, or calls `process.start()`, which takes the lock again.  `process`
is the object as it is at that moment; another goroutine may have changed it
since the test. -/
def Manager.startProcessRest (env : Env) (running : Bool) (process : Process) (w : World) :
    Process × World :=
  if running then (process, w) else process.start env w

/-- The Go method `Manager.startProcess` when no other goroutine takes the lock of
the process between the test and the start. -/
def Manager.startProcess (env : Env) (process : Process) (w : World) : Process × World :=
  Manager.startProcessRest env (Manager.startProcessTest process) process w

/-- The Go method `Manager.do`: the process and the world when `do` returns, and
whether its goroutine is still to call `failed`.  The goroutine can take the
timer branch only if the timer has fired before the deferred `cancel()`, which runs
as soon as `handler` has returned; the clock reading at that moment is the one that
follows `handler`.  When the timer has fired, `Env.doSchedule` says which branch
the `select` takes and when `failed` gets the lock of the process. -/
def Manager.do (env : Env) (timeout : Duration)
    (handler failed : Process → World → Process × World) (p : Process) (w : World) :
    Process × World × Bool :=
  if env.now w.calls + timeout ≤ env.now (handler p w).2.calls then
    match env.doSchedule w.calls with
    | .cancelled => ((handler p w).1, (handler p w).2, false)
    | .before =>
      ((handler (failed p w).1 (failed p w).2).1, (handler (failed p w).1 (failed p w).2).2,
        false)
    | .after =>
      ((failed (handler p w).1 (handler p w).2).1, (failed (handler p w).1 (handler p w).2).2,
        false)
    | .later => ((handler p w).1, (handler p w).2, true)
  else ((handler p w).1, (handler p w).2, false)

/-- The Go method `Manager.killProcess`, for the process found in slot `key`. -/
def Manager.killProcess (env : Env) (m : Manager) (key : String) (process : Process)
    (prune : Bool) (w : World) : Manager × World :=
  let r := if !process.isRunning then (process, w) else process.signal env SIGKILL w
  let m1 := m.write key r.1
  (if prune then m1.removeProcess r.1.uuid else m1, r.2)

/-- The part of `Manager.stopProcess` that acts on the process; a goroutine of
`do` that is still to call `failed` is left in the world. -/
def Manager.stopCore (env : Env) (process : Process) (gracefully : Duration) (w : World) :
    Process × World :=
  if !process.isRunning then (process, w)
  else
    let r := Manager.do env gracefully (Process.signal env SIGTERM) (Process.signal env SIGKILL)
      process w
    if r.2.2 then (r.1, r.2.1.later ⟨process.uuid, r.1⟩) else (r.1, r.2.1)

/-- The Go method `Manager.stopProcess`, for the process found in slot `key`. -/
def Manager.stopProcess (env : Env) (m : Manager) (key : String) (process : Process)
    (gracefully : Duration) (prune : Bool) (w : World) : Manager × World :=
  let r := Manager.stopCore env process gracefully w
  let m1 := m.write key r.1
  (if prune then m1.removeProcess r.1.uuid else m1, r.2)

/-- The Go method `Manager.restartProcess`, for the process found in slot `key`. -/
def Manager.restartProcess (env : Env) (m : Manager) (key : String) (process : Process)
    (gracefully : Duration) (w : World) : Manager × World :=
  let s := Manager.stopProcess env m key process gracefully false w
  match s.1.processes key with
  | none => s
  | some process1 =>
    let r := Manager.startProcess env process1 s.2
    (s.1.write key r.1, r.2)

/-- The Go method `Manager.signalProcess`, for the process found in slot `key`. -/
def Manager.signalProcess (env : Env) (m : Manager) (key : String) (process : Process)
    (signal : Signal) (w : World) : Manager × World :=
  if !process.isRunning then (m, w)
  else
    let r := process.signal env signal w
    (m.write key r.1, r.2)

/-- The Go call `m.cron.AddFunc(spec, func() { m.startProcess(process) })`, whose
results are discarded. -/
def Manager.cronAddFunc (env : Env) (m : Manager) (spec : String) (uuid : String) : Manager :=
  if env.cronParse spec then { m with cron := m.cron ++ [(spec, uuid)] } else m

/-- The Go method `Manager.handlerOperate`. -/
def Manager.handlerOperate (env : Env) (operate : Operate) (m : Manager) (w : World) :
    Manager × World :=
  match operate with
  | .Start opt =>
    let c := m.createProcess env opt.Dir opt.Cmd opt.Argv opt.Env opt.Files opt.Restart opt.Cron w
    if opt.Cron ≠ "" then
      (c.2.1.cronAddFunc env opt.Cron c.1.uuid, c.2.2)
    else
      let r := Manager.startProcess env c.1 c.2.2
      (c.2.1.write c.1.uuid r.1, r.2)
  | .Kill opt =>
    match m.searchProcess opt.UUID with
    | none => (m, w)
    | some process => m.killProcess env opt.UUID process opt.Prune w
  | .Stop opt =>
    match m.searchProcess opt.UUID with
    | none => (m, w)
    | some process => m.stopProcess env opt.UUID process opt.Gracefully opt.Prune w
  | .Restart opt =>
    match m.searchProcess opt.UUID with
    | none => (m, w)
    | some process => m.restartProcess env opt.UUID process opt.Gracefully w
  | .Signal opt =>
    match m.searchProcess opt.UUID with
    | none => (m, w)
    | some process => m.signalProcess env opt.UUID process opt.Signal w
  | .other => (m, w)

/-! ## Runs used to state the properties -/

/-- The last `n` elements of a list, in order. -/
def lastN {α : Type} (n : Nat) (l : List α) : List α := l.drop (l.length - n)

/-- One step of an interleaving of `pushEvent` calls and `metadata` reads on a process. -/
inductive JournalOp where
  | push (now : Int) (k : kind) (message : String)
  | read
  deriving DecidableEq, Repr

/-- The effect of one journal operation. -/
def JournalOp.apply (env : Env) : Process × World → JournalOp → Process × World
  | (p, w), .push now k message => (p.pushEvent now k message, w)
  | (p, w), .read => ((p.metadata env w).1, (p.metadata env w).2.1)

/-- The effect of an interleaving, left to right. -/
def runJournal (env : Env) (ops : List JournalOp) (s : Process × World) : Process × World :=
  ops.foldl (JournalOp.apply env) s

/-- The events an interleaving pushes, in push order. -/
def pushed : List JournalOp → List event
  | [] => []
  | .push now k message :: ops => ⟨now, k, message⟩ :: pushed ops
  | .read :: ops => pushed ops

/-- One step in the life of a process object after its creation: a spawn, the
delivery of a signal, or the return of `Wait` in the watcher at position `i`
among the waiting goroutines. -/
inductive Action where
  | start
  | signal (s : Signal)
  | reap (i : Nat) (res : Except String ProcessState)

/-- The effect of one action on a process and the world. -/
def Process.act (env : Env) : Process × World → Action → Process × World
  | (p, w), .start => p.start env w
  | (p, w), .signal s => p.signal env s w
  | (p, w), .reap i res =>
    match w.watchers.get? i with
    | none => (p, w)
    | some g =>
      if g.uuid = p.uuid then
        ((Process.watcher env p g.process g.files res
            { w with watchers := w.watchers.eraseIdx i }).1,
         (Process.watcher env p g.process g.files res
            { w with watchers := w.watchers.eraseIdx i }).2.1)
      else (p, w)

/-- The effect of a sequence of actions, left to right. -/
def Process.run (env : Env) (acts : List Action) (s : Process × World) : Process × World :=
  acts.foldl (Process.act env) s

/-- The process object `createProcess` builds. -/
def newProcess (uuid : String) (a : Attributes) : Process :=
  { uuid := uuid, attributes := a, process := none, processState := none, files := [],
    events := Ring.New 10 }

/-- The contents of a ring of ten slots after the events `l` have been pushed. -/
def journalOf (l : List event) : List (Option event) :=
  List.replicate (10 - l.length) none ++ (lastN 10 l).map some

/-- Every registry slot holds the process whose uuid is the key of the slot. -/
def Manager.WF (m : Manager) : Prop := ∀ k p, m.processes k = some p → p.uuid = k

/-- The invariant of the run state: an exit status is recorded only on a process
that has a handle, and no watcher waits for a process that has none. -/
def Process.Inv (s : Process × World) : Prop :=
  (s.1.processState.isSome = true → s.1.process.isSome = true) ∧
    (s.1.process = none → ∀ g ∈ s.2.watchers, g.uuid ≠ s.1.uuid)

/-! ## Concrete inputs -/

/-- An environment in which every external call succeeds: the clock reads the
call index in nanoseconds and the k-th call of `os.StartProcess` returns pid `100 + k`. -/
def demoEnv : Env :=
  { now := fun n => n,
    uuidNew := fun _ => "u1",
    openFile := fun _ _ => none,
    startProcess := fun n _ _ => .ok (100 + n),
    signal := fun _ _ _ => none,
    doSchedule := fun _ => .after,
    cronParse := fun _ => true,
    sigString := fun s => toString s,
    formatTime := fun t => toString t }

/-- The environment `demoEnv`, except that `os.StartProcess` fails. -/
def demoEnvNoExec : Env :=
  { demoEnv with startProcess := fun _ _ _ => .error "fork/exec /bin/sleep: permission denied" }

/-- The attributes of the example in the specification. -/
def demoAttributes : Attributes :=
  { dir := ".", cmd := "/bin/sleep", argv := ["sleep", "100"], env := [], files := ["/tmp/log"],
    restart := false, cron := "" }

/-- The world before any external call. -/
def demoWorld : World := { calls := 0, trace := [], watchers := [], escalations := [] }

/-- The Start command of the example in the specification. -/
def demoStart : OperateStart :=
  { Dir := ".", Cmd := "/bin/sleep", Argv := ["sleep", "100"], Env := [], Files := ["/tmp/log"],
    Restart := false, Cron := "" }

/-- The engine after `demoStart` has been dispatched on a new manager: one
process, `u1`, running with pid 103. -/
def demoRunning : Manager × World :=
  NewManager.handlerOperate demoEnv (.Start demoStart) demoWorld

/-- The process `u1` of `demoRunning`. -/
def demoRunningProcess : Process :=
  match demoRunning.1.processes "u1" with
  | none => newProcess "u1" ⟨"", "", [], [], [], false, ""⟩
  | some p => p

/-- The process `u1` of `demoRunning` after its watcher has recorded exit status 0. -/
def demoExitedProcess : Process :=
  match demoRunning.1.processes "u1" with
  | none => newProcess "u1" ⟨"", "", [], [], [], false, ""⟩
  | some p => (Process.watcher demoEnv p ⟨103⟩ [⟨"/tmp/log", 1⟩] (.ok ⟨0, "exit status 0"⟩)
      demoRunning.2).1

/-- The registry of `demoRunning` after the watcher of `u1` has recorded its exit. -/
def demoExited : Manager := demoRunning.1.write "u1" demoExitedProcess

/-- The engine after a Start with a cron expression has been dispatched on a new
manager: one process, `u1`, registered and never spawned. -/
def demoIdle : Manager × World :=
  NewManager.handlerOperate demoEnv (.Start { demoStart with Cron := "* * * * * *" }) demoWorld

/-! ## manager.go: the command queue -/

/-- The capacity `NewManager` gives `operateChannel`. -/
def operateChannelCap : Nat := 1024

/-- The error `Manager.Operate` returns, which names the command. -/
inductive OperateError where
  | timeout (operate : process.Operate)
  deriving DecidableEq, Repr

/-- The Go method `Manager.Operate`.  `timerFirst` is the outcome of the `select`
when the timer has fired: with `true`, or when the channel has no room until the
timer fires, the call returns the timeout error and the channel is unchanged;
otherwise the command is appended to the channel and the call returns nil. -/
def Manager.Operate (m : Manager) (operate : process.Operate) (timerFirst : Bool) :
    Except OperateError Manager :=
  if timerFirst = false ∧ m.operateChannel.length < operateChannelCap then
    .ok { m with operateChannel := m.operateChannel ++ [operate] }
  else .error (.timeout operate)

/-- What happens next while `Manager.Run` is in its loop: some goroutine calls
`Manager.Operate`, the `select` of the loop takes one of its two branches, or the
goroutine at position `i` among those `Manager.do` has left behind calls `failed`. -/
inductive Tick where
  | operate (c : process.Operate) (timerFirst : Bool)
  | receive
  | done
  | escalate (i : Nat)
  deriving DecidableEq, Repr

/-- The engine while `Manager.Run` executes, with two logs: the commands for
which `Manager.Operate` has returned nil and the commands passed to
`handlerOperate`, both oldest first. -/
structure RunState where
  m : Manager
  w : World
  accepted : List process.Operate
  dispatched : List process.Operate

/-- The Go method `Manager.Run`, driven by a schedule.  On `receive` the loop
takes the oldest command from the channel and calls `handlerOperate` on it (with
an empty channel the branch is not ready and nothing happens); on `done` the
loop returns.  On `escalate` a goroutine left by `Manager.do` runs
`process.signal(SIGKILL)` on its process object: the registered one, or the
object it kept when the process has been pruned. -/
def Manager.Run (env : Env) : List Tick → RunState → RunState
  | [], s => s
  | .done :: _, s => s
  | .receive :: t, s =>
    match s.m.operateChannel with
    | [] => Manager.Run env t s
    | c :: rest =>
      Manager.Run env t
        { s with
          m := (Manager.handlerOperate env c { s.m with operateChannel := rest } s.w).1,
          w := (Manager.handlerOperate env c { s.m with operateChannel := rest } s.w).2,
          dispatched := s.dispatched ++ [c] }
  | .operate c timerFirst :: t, s =>
    match s.m.Operate c timerFirst with
    | .error _ => Manager.Run env t s
    | .ok m1 => Manager.Run env t { s with m := m1, accepted := s.accepted ++ [c] }
  | .escalate i :: t, s =>
    match s.w.escalations.get? i with
    | none => Manager.Run env t s
    | some e =>
      match s.m.processes e.uuid with
      | some p =>
        Manager.Run env t
          { s with
            m := s.m.write e.uuid
              (p.signal env SIGKILL { s.w with escalations := s.w.escalations.eraseIdx i }).1,
            w := (p.signal env SIGKILL { s.w with escalations := s.w.escalations.eraseIdx i }).2 }
      | none =>
        Manager.Run env t
          { s with
            w := (e.object.signal env SIGKILL
              { s.w with escalations := s.w.escalations.eraseIdx i }).2 }

/-! ## cmd/main.go: the signal command -/

/-- The constants of package `syscall` that `newSignalCommand` names besides
`SIGKILL` and `SIGTERM`; their values depend on the platform. -/
structure SignalConsts where
  SIGABRT : Signal
  SIGALRM : Signal
  SIGBUS : Signal
  SIGCHLD : Signal
  SIGCONT : Signal
  SIGEMT : Signal
  SIGFPE : Signal
  SIGHUP : Signal
  SIGILL : Signal
  SIGINFO : Signal
  SIGINT : Signal
  SIGIO : Signal
  SIGIOT : Signal
  SIGPIPE : Signal
  SIGPROF : Signal
  SIGQUIT : Signal
  SIGSEGV : Signal
  SIGSTOP : Signal
  SIGSYS : Signal
  SIGTRAP : Signal
  SIGTSTP : Signal
  SIGTTIN : Signal
  SIGTTOU : Signal
  SIGURG : Signal
  SIGUSR1 : Signal
  SIGUSR2 : Signal
  SIGVTALRM : Signal
  SIGWINCH : Signal
  SIGXCPU : Signal
  SIGXFSZ : Signal

/-- The Go struct `SignalArgv` of service.go. -/
structure SignalArgv where
  UUID : String
  Signal : Signal
  deriving DecidableEq, Repr

/-- The `switch` of `newSignalCommand` on the upper-cased flag value. -/
def signalSwitch (k : SignalConsts) (upper : String) (argv : SignalArgv) : SignalArgv :=
  match upper with
  | "ABRT" => { argv with Signal := k.SIGABRT }
  | "ALRM" => { argv with Signal := k.SIGALRM }
  | "BUS" => { argv with Signal := k.SIGBUS }
  | "CHLD" => { argv with Signal := k.SIGCHLD }
  | "CONT" => { argv with Signal := k.SIGCONT }
  | "EMT" => { argv with Signal := k.SIGEMT }
  | "FPE" => { argv with Signal := k.SIGFPE }
  | "HUP" => { argv with Signal := k.SIGHUP }
  | "ILL" => { argv with Signal := k.SIGILL }
  | "INFO" => { argv with Signal := k.SIGINFO }
  | "INT" => { argv with Signal := k.SIGINT }
  | "IO" => { argv with Signal := k.SIGIO }
  | "IOT" => { argv with Signal := k.SIGIOT }
  | "KILL" => { argv with Signal := SIGKILL }
  | "PIPE" => { argv with Signal := k.SIGPIPE }
  | "PROF" => { argv with Signal := k.SIGPROF }
  | "QUIT" => { argv with Signal := k.SIGQUIT }
  | "SEGV" => { argv with Signal := k.SIGSEGV }
  | "STOP" => { argv with Signal := k.SIGSTOP }
  | "SYS" => { argv with Signal := k.SIGSYS }
  | "TERM" => { argv with Signal := SIGTERM }
  | "TRAP" => { argv with Signal := k.SIGTRAP }
  | "TSTP" => { argv with Signal := k.SIGTSTP }
  | "TTIN" => { argv with Signal := k.SIGTTIN }
  | "TTOU" => { argv with Signal := k.SIGTTOU }
  | "URG" => { argv with Signal := k.SIGURG }
  | "USR1" => { argv with Signal := k.SIGUSR1 }
  | "USR2" => { argv with Signal := k.SIGUSR2 }
  | "VTALRM" => { argv with Signal := k.SIGVTALRM }
  | "WINCH" => { argv with Signal := k.SIGWINCH }
  | "XCPU" => { argv with Signal := k.SIGXCPU }
  | "XFSZ" => { argv with Signal := k.SIGXFSZ }
  | _ => argv

/-- The request `newSignalCommand` sends for the flags `uuid` and `signal`;
`toUpper` is the Go function `strings.ToUpper`. -/
def newSignalArgv (toUpper : String → String) (k : SignalConsts) (uuid signal : String) :
    SignalArgv :=
  signalSwitch k (toUpper signal) { UUID := uuid, Signal := 0 }

/-- The symbolic names the signal command lists, each with its signal. -/
def listedSignals (k : SignalConsts) : List (String × Signal) :=
  [("ABRT", k.SIGABRT), ("ALRM", k.SIGALRM), ("BUS", k.SIGBUS), ("CHLD", k.SIGCHLD),
   ("CONT", k.SIGCONT), ("EMT", k.SIGEMT), ("FPE", k.SIGFPE), ("HUP", k.SIGHUP),
   ("ILL", k.SIGILL), ("INFO", k.SIGINFO), ("INT", k.SIGINT), ("IO", k.SIGIO),
   ("IOT", k.SIGIOT), ("KILL", SIGKILL), ("PIPE", k.SIGPIPE), ("PROF", k.SIGPROF),
   ("QUIT", k.SIGQUIT), ("SEGV", k.SIGSEGV), ("STOP", k.SIGSTOP), ("SYS", k.SIGSYS),
   ("TERM", SIGTERM), ("TRAP", k.SIGTRAP), ("TSTP", k.SIGTSTP), ("TTIN", k.SIGTTIN),
   ("TTOU", k.SIGTTOU), ("URG", k.SIGURG), ("USR1", k.SIGUSR1), ("USR2", k.SIGUSR2),
   ("VTALRM", k.SIGVTALRM), ("WINCH", k.SIGWINCH), ("XCPU", k.SIGXCPU), ("XFSZ", k.SIGXFSZ)]

/-- What `strings.ToUpper` returns on a string of ASCII characters. -/
def upperASCII (s : String) : String := ⟨s.data.map Char.toUpper⟩

/-- The signal numbers of the BSD family, the platforms that define `SIGEMT` and `SIGINFO`. -/
def demoSignals : SignalConsts :=
  { SIGABRT := 6, SIGALRM := 14, SIGBUS := 10, SIGCHLD := 20, SIGCONT := 19, SIGEMT := 7,
    SIGFPE := 8, SIGHUP := 1, SIGILL := 4, SIGINFO := 29, SIGINT := 2, SIGIO := 23,
    SIGIOT := 6, SIGPIPE := 13, SIGPROF := 27, SIGQUIT := 3, SIGSEGV := 11, SIGSTOP := 17,
    SIGSYS := 12, SIGTRAP := 5, SIGTSTP := 18, SIGTTIN := 21, SIGTTOU := 22, SIGURG := 16,
    SIGUSR1 := 30, SIGUSR2 := 31, SIGVTALRM := 26, SIGWINCH := 28, SIGXCPU := 24,
    SIGXFSZ := 25 }

/-- The attributes of a process with a cron trigger that fires every second. -/
def demoCronAttributes : Attributes := { demoAttributes with cron := "* * * * * *" }

/-- The new process `u1` after the first of two start actions (a cron fire and a
dispatched Restart, say) whose `isRunning` tests have both returned before either
of them goes on: the first one spawns. -/
def demoRaceFirst : Process × World :=
  Manager.startProcessRest demoEnv
    (Manager.startProcessTest (newProcess "u1" demoCronAttributes))
    (newProcess "u1" demoCronAttributes) demoWorld

/-- The process after the second start action has gone on as well, with the result
of the test it made on the new process. -/
def demoRaceSecond : Process × World :=
  Manager.startProcessRest demoEnv
    (Manager.startProcessTest (newProcess "u1" demoCronAttributes))
    demoRaceFirst.1 demoRaceFirst.2

/-- The environment `demoEnv`, except that the goroutine of `Manager.do` takes the
timer branch and has not called `failed` when `do` returns. -/
def demoEnvLater : Env := { demoEnv with doSchedule := fun _ => .later }

/-- Stop with a grace period of zero and then Signal with signal 1 are accepted
for `u1`, and the loop receives both. -/
def demoTwoCommands : List Tick :=
  [.operate (.Stop ⟨"u1", 0, false⟩) false, .operate (.Signal ⟨"u1", 1⟩) false, .receive, .receive]

/-! # Properties -/

/-! ## The event journal -/

theorem rotate_one_cons {α : Type} (a : α) (t : List α) : (a :: t).rotate 1 = t ++ [a] := by
  rw [List.rotate_cons_succ, List.rotate_zero]

theorem metadataLoop_eq (env : Env) :
    ∀ (n : Nat) (r : Ring) (acc : List String), n ≤ r.elems.length →
      Process.metadataLoop env n r acc =
        (⟨r.elems.rotate n⟩, acc ++ (r.elems.take n).filterMap (Option.map (fmtEvent env))) := by
  intro n
  induction n with
  | zero => intro r acc _; simp [Process.metadataLoop]
  | succ n ih =>
    intro r acc hn
    obtain ⟨elems⟩ := r
    cases elems with
    | nil => simp at hn
    | cons h t =>
      have hn1 : n ≤ t.length := by simpa using hn
      have hlen : n ≤ (Ring.Next ⟨h :: t⟩).elems.length := by simp [Ring.Next]; omega
      rw [Process.metadataLoop, ih _ _ hlen]
      have hrot : (Ring.Next ⟨h :: t⟩).elems = t ++ [h] := by simp [Ring.Next, rotate_one_cons]
      rw [hrot, List.take_append_of_le_length hn1]
      cases h with
      | none => simp [Ring.Value, List.rotate_cons_succ]
      | some e => simp [Ring.Value, List.rotate_cons_succ]

theorem metadata_events (env : Env) (p : Process) (w : World) :
    (p.metadata env w).1 = p ∧
      (p.metadata env w).2.2.Events = p.events.elems.filterMap (Option.map (fmtEvent env)) := by
  have h := metadataLoop_eq env p.events.elems.length p.events [] (le_refl _)
  simp only [Process.metadata, Ring.Len, h]
  simp [List.rotate_length]

theorem journalOf_push (l : List event) (e : event) :
    (journalOf l).tail ++ [some e] = journalOf (l ++ [e]) := by
  unfold journalOf lastN
  by_cases hl : l.length < 10
  · have h1 : 10 - l.length = (10 - (l.length + 1)) + 1 := by omega
    have h2 : l.length - 10 = 0 := by omega
    have h3 : (l ++ [e]).length - 10 = 0 := by simp; omega
    rw [h3, h2, h1, List.replicate_succ]
    simp
  · have h1 : 10 - l.length = 0 := by omega
    have h2 : 10 - (l ++ [e]).length = 0 := by simp; omega
    have h3 : (l ++ [e]).length - 10 = (l.length - 10) + 1 := by simp; omega
    have h4 : l.length - 10 + 1 ≤ l.length := by omega
    rw [h1, h2, h3]
    simp [List.drop_append_of_le_length h4, ← List.map_tail, List.tail_drop]

theorem journalOf_ne_nil (l : List event) : journalOf l ≠ [] := by
  unfold journalOf lastN
  intro h
  have := congrArg List.length h
  simp at this
  omega

theorem pushEvent_journal (p : Process) (l : List event) (now : Int) (k : kind) (msg : String)
    (h : p.events.elems = journalOf l) :
    (p.pushEvent now k msg).events.elems = journalOf (l ++ [⟨now, k, msg⟩]) := by
  rw [← journalOf_push]
  have hne := journalOf_ne_nil l
  cases hj : journalOf l with
  | nil => exact absurd hj hne
  | cons a t =>
    rw [hj] at h
    simp [Process.pushEvent, Ring.setValue, Ring.Next, h, rotate_one_cons]

theorem pushed_append (a b : List JournalOp) : pushed (a ++ b) = pushed a ++ pushed b := by
  induction a with
  | nil => rfl
  | cons x xs ih => cases x <;> simp [pushed, ih]

theorem runJournal_journal (env : Env) (ops : List JournalOp) :
    ∀ (p : Process) (w : World) (l : List event), p.events.elems = journalOf l →
      (runJournal env ops (p, w)).1.events.elems = journalOf (l ++ pushed ops) := by
  induction ops with
  | nil => intro p w l h; simpa [runJournal, pushed] using h
  | cons op ops ih =>
    intro p w l h
    cases op with
    | push now k msg =>
      have := ih (p.pushEvent now k msg) w _ (pushEvent_journal p l now k msg h)
      simpa [runJournal, JournalOp.apply, pushed] using this
    | read =>
      have hm := (metadata_events env p w).1
      have := ih (p.metadata env w).1 (p.metadata env w).2.1 l (by rw [hm]; exact h)
      simpa [runJournal, JournalOp.apply, pushed] using this

theorem journalOf_render (env : Env) (l : List event) :
    (journalOf l).filterMap (Option.map (fmtEvent env)) = (lastN 10 l).map (fmtEvent env) := by
  unfold journalOf
  rw [List.filterMap_append]
  have h1 : ∀ n : Nat, (List.replicate n (none : Option event)).filterMap
      (Option.map (fmtEvent env)) = [] := by
    intro n
    induction n with
    | zero => rfl
    | succ n ih => simp [List.replicate_succ, ih]
  have h2 : ∀ l : List event, (l.map some).filterMap (Option.map (fmtEvent env)) =
      l.map (fmtEvent env) := by
    intro l
    induction l with
    | nil => rfl
    | cons a t ih => simp [ih]
  rw [h1, h2]
  rfl

theorem lastN_length {α : Type} (n : Nat) (l : List α) : (lastN n l).length = min l.length n := by
  unfold lastN
  simp
  omega

/-- C1: after any interleaving of `pushEvent` calls and `metadata` reads on a
newly created process, `metadata` returns in `Events` the rendering of exactly the
last `min k 10` events pushed so far, oldest first; `Events` never has more than
ten entries, and reading again returns the same `Events`. -/
theorem C1_metadata_events_last_ten (env : Env) (m : Manager) (dir cmd : String)
    (argv envs files : List String) (restart : Bool) (cron : String) (w0 w : World)
    (ops : List JournalOp) :
    let p0 := (m.createProcess env dir cmd argv envs files restart cron w0).1
    let s := runJournal env ops (p0, w)
    let r := s.1.metadata env s.2
    r.2.2.Events = (lastN 10 (pushed ops)).map (fmtEvent env) ∧
      (lastN 10 (pushed ops)).length = min (pushed ops).length 10 ∧
      r.2.2.Events.length ≤ 10 ∧
      (r.1.metadata env r.2.1).2.2.Events = r.2.2.Events := by
  intro p0 s r
  have h0 : p0.events.elems = journalOf [] := rfl
  have hs : s.1.events.elems = journalOf (pushed ops) := by
    have := runJournal_journal env ops p0 w [] h0
    simpa using this
  have hr := metadata_events env s.1 s.2
  have hev : r.2.2.Events = (lastN 10 (pushed ops)).map (fmtEvent env) := by
    show (s.1.metadata env s.2).2.2.Events = _
    rw [hr.2, hs, journalOf_render]
  refine ⟨hev, lastN_length _ _, ?_, ?_⟩
  · rw [hev, List.length_map, lastN_length]
    exact min_le_right _ _
  · have hr1 : r.1 = s.1 := hr.1
    rw [(metadata_events env r.1 r.2.1).2, hr1, hr.2]

/-! ## Identity and attributes are never written -/

theorem pushEvent_uuid (p : Process) (now : Int) (k : kind) (msg : String) :
    (p.pushEvent now k msg).uuid = p.uuid ∧ (p.pushEvent now k msg).attributes = p.attributes :=
  ⟨rfl, rfl⟩

theorem signal_uuid (env : Env) (s : Signal) (p : Process) (w : World) :
    (p.signal env s w).1.uuid = p.uuid ∧ (p.signal env s w).1.attributes = p.attributes := by
  unfold Process.signal
  split
  · exact ⟨rfl, rfl⟩
  · split <;> exact ⟨rfl, rfl⟩

theorem start_uuid (env : Env) (p : Process) (w : World) :
    (p.start env w).1.uuid = p.uuid ∧ (p.start env w).1.attributes = p.attributes := by
  unfold Process.start
  split
  · exact ⟨rfl, rfl⟩
  · dsimp only
    split <;> exact ⟨rfl, rfl⟩

theorem startProcess_uuid (env : Env) (p : Process) (w : World) :
    (Manager.startProcess env p w).1.uuid = p.uuid ∧
      (Manager.startProcess env p w).1.attributes = p.attributes := by
  unfold Manager.startProcess Manager.startProcessRest
  split
  · exact ⟨rfl, rfl⟩
  · exact start_uuid env p w

theorem do_cases (env : Env) (timeout : Duration)
    (handler failed : Process → World → Process × World) (p : Process) (w : World) :
    Manager.do env timeout handler failed p w = ((handler p w).1, (handler p w).2, false) ∨
      Manager.do env timeout handler failed p w =
        ((handler (failed p w).1 (failed p w).2).1, (handler (failed p w).1 (failed p w).2).2,
          false) ∨
      Manager.do env timeout handler failed p w =
        ((failed (handler p w).1 (handler p w).2).1, (failed (handler p w).1 (handler p w).2).2,
          false) ∨
      Manager.do env timeout handler failed p w = ((handler p w).1, (handler p w).2, true) := by
  unfold Manager.do
  split
  · split
    · exact Or.inl rfl
    · exact Or.inr (Or.inl rfl)
    · exact Or.inr (Or.inr (Or.inl rfl))
    · exact Or.inr (Or.inr (Or.inr rfl))
  · exact Or.inl rfl

/-- What `stopProcess` does to a process: nothing, the termination request, or
the termination request and the kill in either order; and the goroutine of `do`
may be left behind. -/
theorem stopCore_cases (env : Env) (p : Process) (g : Duration) (w : World) :
    ∃ r : Process × World,
      (Manager.stopCore env p g w = r ∨
          ∃ e, Manager.stopCore env p g w = (r.1, r.2.later e)) ∧
        (r = (p, w) ∨ r = p.signal env SIGTERM w ∨
          r = Process.signal env SIGTERM (p.signal env SIGKILL w).1 (p.signal env SIGKILL w).2 ∨
          r = Process.signal env SIGKILL (p.signal env SIGTERM w).1 (p.signal env SIGTERM w).2) := by
  unfold Manager.stopCore
  split
  · exact ⟨(p, w), Or.inl rfl, Or.inl rfl⟩
  · rcases do_cases env g (Process.signal env SIGTERM) (Process.signal env SIGKILL) p w with
      h | h | h | h
    · simp only [h]
      exact ⟨_, Or.inl rfl, Or.inr (Or.inl rfl)⟩
    · simp only [h]
      exact ⟨_, Or.inl rfl, Or.inr (Or.inr (Or.inl rfl))⟩
    · simp only [h]
      exact ⟨_, Or.inl rfl, Or.inr (Or.inr (Or.inr rfl))⟩
    · simp only [h]
      exact ⟨p.signal env SIGTERM w, Or.inr ⟨_, rfl⟩, Or.inr (Or.inl rfl)⟩

theorem stopCore_uuid (env : Env) (p : Process) (g : Duration) (w : World) :
    (Manager.stopCore env p g w).1.uuid = p.uuid ∧
      (Manager.stopCore env p g w).1.attributes = p.attributes := by
  have hT := signal_uuid env SIGTERM p w
  have hK := signal_uuid env SIGKILL p w
  have hTK := signal_uuid env SIGKILL (p.signal env SIGTERM w).1 (p.signal env SIGTERM w).2
  have hKT := signal_uuid env SIGTERM (p.signal env SIGKILL w).1 (p.signal env SIGKILL w).2
  obtain ⟨r, hr, hc⟩ := stopCore_cases env p g w
  have h1 : (Manager.stopCore env p g w).1 = r.1 := by
    rcases hr with h | ⟨e, h⟩ <;> rw [h]
  rw [h1]
  rcases hc with h | h | h | h <;> rw [h]
  · exact ⟨rfl, rfl⟩
  · exact hT
  · exact ⟨hKT.1.trans hK.1, hKT.2.trans hK.2⟩
  · exact ⟨hTK.1.trans hT.1, hTK.2.trans hT.2⟩

/-! ## The registry -/

theorem NewManager_WF : NewManager.WF := by
  intro k p h
  simp [NewManager] at h

theorem prune_processes (m : Manager) (key : String) (q : Process) (prune : Bool) (u : String)
    (hq : q.uuid = key) :
    (if prune = true then (m.write key q).removeProcess q.uuid else m.write key q).processes u =
      if u = key then (if prune = true then none else some q) else m.processes u := by
  cases prune
  · simp [Manager.write]
  · by_cases hk : u = key <;> simp [Manager.write, Manager.removeProcess, hq, hk]

theorem killProcess_processes (env : Env) (m : Manager) (key : String) (p : Process)
    (prune : Bool) (w : World) (hp : p.uuid = key) (u : String) :
    (m.killProcess env key p prune w).1.processes u =
      if u = key then
        (if prune then none else some (if !p.isRunning then (p, w) else p.signal env SIGKILL w).1)
      else m.processes u := by
  have hu : (if !p.isRunning then (p, w) else p.signal env SIGKILL w).1.uuid = key := by
    split
    · exact hp
    · exact (signal_uuid env SIGKILL p w).1.trans hp
  unfold Manager.killProcess
  exact prune_processes m key _ prune u hu

theorem stopProcess_processes (env : Env) (m : Manager) (key : String) (p : Process)
    (g : Duration) (prune : Bool) (w : World) (hp : p.uuid = key) (u : String) :
    (m.stopProcess env key p g prune w).1.processes u =
      if u = key then (if prune then none else some (Manager.stopCore env p g w).1)
      else m.processes u := by
  have hu : (Manager.stopCore env p g w).1.uuid = key := (stopCore_uuid env p g w).1.trans hp
  unfold Manager.stopProcess
  exact prune_processes m key _ prune u hu

theorem restartProcess_eq (env : Env) (m : Manager) (key : String) (p : Process)
    (g : Duration) (w : World) :
    m.restartProcess env key p g w =
      ((m.write key (Manager.stopCore env p g w).1).write key
          (Manager.startProcess env (Manager.stopCore env p g w).1
            (Manager.stopCore env p g w).2).1,
        (Manager.startProcess env (Manager.stopCore env p g w).1
          (Manager.stopCore env p g w).2).2) := by
  simp [Manager.restartProcess, Manager.stopProcess, Manager.write]

theorem handlerOperate_WF (env : Env) (c : Operate) (m : Manager) (w : World) (hwf : m.WF) :
    (m.handlerOperate env c w).1.WF := by
  intro k q
  cases c with
  | Start opt =>
    unfold Manager.handlerOperate
    simp only [Manager.createProcess]
    split
    · unfold Manager.cronAddFunc
      split <;>
      · simp only [Manager.write]
        split
        · rename_i hk; intro h; cases h; exact hk.symm
        · exact hwf k q
    · simp only [Manager.write]
      split
      · rename_i hk
        intro h
        cases h
        rw [(startProcess_uuid env _ _).1]
        exact hk.symm
      · exact hwf k q
  | Kill opt =>
    unfold Manager.handlerOperate
    simp only [Manager.searchProcess]
    cases hs : m.processes opt.UUID with
    | none => exact hwf k q
    | some p =>
      simp only [killProcess_processes env m opt.UUID p opt.Prune w (hwf _ _ hs) k]
      split
      · rename_i hk
        split
        · intro h; cases h
        · intro h
          cases h
          split
          · rw [hk]; exact hwf _ _ hs
          · rw [hk, (signal_uuid env SIGKILL p w).1]; exact hwf _ _ hs
      · exact hwf k q
  | Stop opt =>
    unfold Manager.handlerOperate
    simp only [Manager.searchProcess]
    cases hs : m.processes opt.UUID with
    | none => exact hwf k q
    | some p =>
      simp only [stopProcess_processes env m opt.UUID p opt.Gracefully opt.Prune w (hwf _ _ hs) k]
      split
      · rename_i hk
        split
        · intro h; cases h
        · intro h
          cases h
          rw [hk, (stopCore_uuid env p _ w).1]; exact hwf _ _ hs
      · exact hwf k q
  | Restart opt =>
    unfold Manager.handlerOperate
    simp only [Manager.searchProcess]
    cases hs : m.processes opt.UUID with
    | none => exact hwf k q
    | some p =>
      simp only [restartProcess_eq, Manager.write]
      split
      · rename_i hk
        intro h
        cases h
        rw [hk, (startProcess_uuid env _ _).1, (stopCore_uuid env p _ w).1]; exact hwf _ _ hs
      · exact hwf k q
  | Signal opt =>
    unfold Manager.handlerOperate
    simp only [Manager.searchProcess]
    cases hs : m.processes opt.UUID with
    | none => exact hwf k q
    | some p =>
      simp only [Manager.signalProcess]
      split
      · exact hwf k q
      · simp only [Manager.write]
        split
        · rename_i hk
          intro h
          cases h
          rw [hk, (signal_uuid env _ p w).1]; exact hwf _ _ hs
        · exact hwf k q
  | other => exact hwf k q

theorem demoRunning_WF : demoRunning.1.WF :=
  handlerOperate_WF demoEnv _ NewManager demoWorld NewManager_WF

theorem demoIdle_WF : demoIdle.1.WF :=
  handlerOperate_WF demoEnv _ NewManager demoWorld NewManager_WF

theorem demoIdle_not_running :
    ∀ p, demoIdle.1.processes "u1" = some p →
      (p.process = none ∨ p.processState.isSome = true) := by
  intro p hp
  have h : demoIdle.1.processes "u1" = some (newProcess "u1" ⟨".", "/bin/sleep",
      ["sleep", "100"], [], ["/tmp/log"], false, "* * * * * *"⟩) := by decide
  rw [h] at hp
  cases hp
  exact Or.inl rfl

/-- C2: a registered identifier is absent from the registry after a dispatch
exactly when the command is a Kill or a Stop for that identifier with Prune set;
the run state of the process plays no part. -/
theorem C2_removed_iff_prune (env : Env) (c : Operate) (m : Manager) (w : World) (u : String)
    (hwf : m.WF) (hu : (m.processes u).isSome = true) :
    (m.handlerOperate env c w).1.processes u = none ↔
      ((∃ opt : OperateKill, c = .Kill opt ∧ opt.UUID = u ∧ opt.Prune = true) ∨
        (∃ opt : OperateStop, c = .Stop opt ∧ opt.UUID = u ∧ opt.Prune = true)) := by
  have hne : m.processes u ≠ none := by
    intro h; rw [h] at hu; exact absurd hu (by decide)
  cases c with
  | Start opt =>
    have : (m.handlerOperate env (.Start opt) w).1.processes u ≠ none := by
      unfold Manager.handlerOperate
      simp only [Manager.createProcess]
      split
      · unfold Manager.cronAddFunc
        split <;> (simp only [Manager.write]; split <;> simp [hne])
      · simp only [Manager.write]
        split <;> simp [hne]
    simp [this]
  | Kill opt =>
    unfold Manager.handlerOperate
    simp only [Manager.searchProcess]
    cases hs : m.processes opt.UUID with
    | none =>
      have hk : opt.UUID ≠ u := by intro h; rw [h] at hs; exact hne hs
      simp [hne, hk]
    | some p =>
      simp only [killProcess_processes env m opt.UUID p opt.Prune w (hwf _ _ hs) u]
      by_cases hk : u = opt.UUID
      · cases hpr : opt.Prune <;> simp [hk, hpr]
      · have hk2 : opt.UUID ≠ u := fun h => hk h.symm
        simp [hk, hk2, hne]
  | Stop opt =>
    unfold Manager.handlerOperate
    simp only [Manager.searchProcess]
    cases hs : m.processes opt.UUID with
    | none =>
      have hk : opt.UUID ≠ u := by intro h; rw [h] at hs; exact hne hs
      simp [hne, hk]
    | some p =>
      simp only [stopProcess_processes env m opt.UUID p opt.Gracefully opt.Prune w (hwf _ _ hs) u]
      by_cases hk : u = opt.UUID
      · cases hpr : opt.Prune <;> simp [hk, hpr]
      · have hk2 : opt.UUID ≠ u := fun h => hk h.symm
        simp [hk, hk2, hne]
  | Restart opt =>
    have : (m.handlerOperate env (.Restart opt) w).1.processes u ≠ none := by
      unfold Manager.handlerOperate
      simp only [Manager.searchProcess]
      cases hs : m.processes opt.UUID with
      | none => simpa using hne
      | some p =>
        simp only [restartProcess_eq, Manager.write]
        split <;> simp [hne]
    simp [this]
  | Signal opt =>
    have : (m.handlerOperate env (.Signal opt) w).1.processes u ≠ none := by
      unfold Manager.handlerOperate
      simp only [Manager.searchProcess]
      cases hs : m.processes opt.UUID with
      | none => simpa using hne
      | some p =>
        simp only [Manager.signalProcess]
        split
        · simpa using hne
        · simp only [Manager.write]
          split <;> simp [hne]
    simp [this]
  | other =>
    simp [Manager.handlerOperate, hne]

/-- A registered process `u1` and the command Kill with Prune for it satisfy the
hypotheses of the C2 statement. -/
theorem C2_removed_iff_prune_witness :
    demoRunning.1.WF ∧ (demoRunning.1.processes "u1").isSome = true ∧
      ((demoRunning.1.handlerOperate demoEnv (.Kill ⟨"u1", true⟩) demoRunning.2).1.processes "u1"
          = none ↔
        ((∃ opt : OperateKill, Operate.Kill ⟨"u1", true⟩ = .Kill opt ∧ opt.UUID = "u1" ∧
            opt.Prune = true) ∨
          (∃ opt : OperateStop, Operate.Kill ⟨"u1", true⟩ = .Stop opt ∧ opt.UUID = "u1" ∧
            opt.Prune = true))) :=
  ⟨demoRunning_WF, by decide,
    C2_removed_iff_prune demoEnv _ demoRunning.1 demoRunning.2 "u1" demoRunning_WF (by decide)⟩

/-! ## Signals leave the run state alone -/

theorem signal_fields (env : Env) (s : Signal) (p : Process) (w : World) :
    (p.signal env s w).1.process = p.process ∧
      (p.signal env s w).1.processState = p.processState ∧
      (p.signal env s w).1.files = p.files ∧
      (p.signal env s w).2.watchers = w.watchers := by
  unfold Process.signal
  split
  · exact ⟨rfl, rfl, rfl, rfl⟩
  · split <;> exact ⟨rfl, rfl, rfl, rfl⟩

theorem stopCore_fields (env : Env) (p : Process) (g : Duration) (w : World) :
    (Manager.stopCore env p g w).1.process = p.process ∧
      (Manager.stopCore env p g w).1.processState = p.processState ∧
      (Manager.stopCore env p g w).1.files = p.files ∧
      (Manager.stopCore env p g w).2.watchers = w.watchers := by
  have hT := signal_fields env SIGTERM p w
  have hK := signal_fields env SIGKILL p w
  have hTK := signal_fields env SIGKILL (p.signal env SIGTERM w).1 (p.signal env SIGTERM w).2
  have hKT := signal_fields env SIGTERM (p.signal env SIGKILL w).1 (p.signal env SIGKILL w).2
  obtain ⟨r, hr, hc⟩ := stopCore_cases env p g w
  have h1 : (Manager.stopCore env p g w).1 = r.1 ∧
      (Manager.stopCore env p g w).2.watchers = r.2.watchers := by
    rcases hr with h | ⟨e, h⟩ <;> rw [h] <;> exact ⟨rfl, rfl⟩
  rw [h1.1, h1.2]
  rcases hc with h | h | h | h <;> rw [h]
  · exact ⟨rfl, rfl, rfl, rfl⟩
  · exact hT
  · exact ⟨hKT.1.trans hK.1, hKT.2.1.trans hK.2.1, hKT.2.2.1.trans hK.2.2.1,
      hKT.2.2.2.trans hK.2.2.2⟩
  · exact ⟨hTK.1.trans hT.1, hTK.2.1.trans hT.2.1, hTK.2.2.1.trans hT.2.2.1,
      hTK.2.2.2.trans hT.2.2.2⟩

theorem stopCore_isRunning (env : Env) (p : Process) (g : Duration) (w : World) :
    (Manager.stopCore env p g w).1.isRunning = p.isRunning := by
  have h := stopCore_fields env p g w
  simp [Process.isRunning, h.1, h.2.1]

theorem write_write (m : Manager) (key : String) (a b : Process) :
    (m.write key a).write key b = m.write key b := by
  simp only [Manager.write, Manager.mk.injEq, and_true, true_and]
  funext k
  split <;> rfl

theorem write_self (m : Manager) (key : String) (p : Process) (h : m.processes key = some p) :
    m.write key p = m := by
  cases m with
  | mk processes ch cr =>
    simp only [Manager.write, Manager.mk.injEq, and_true]
    funext k
    split
    · rename_i hk; rw [hk]; exact h.symm
    · rfl

/-- Restart of a process that is running, whatever the environment answers:
the termination request is all that happens, `startProcess` finds the process
still running and returns. -/
theorem restartProcess_running (env : Env) (m : Manager) (key : String) (p : Process)
    (g : Duration) (w : World) (hrun : p.isRunning = true) :
    m.restartProcess env key p g w =
      (m.write key (Manager.stopCore env p g w).1, (Manager.stopCore env p g w).2) := by
  rw [restartProcess_eq]
  have h : (Manager.stopCore env p g w).1.isRunning = true := by
    rw [stopCore_isRunning]; exact hrun
  simp [Manager.startProcess, Manager.startProcessRest, Manager.startProcessTest, h, write_write]

theorem signal_calls (env : Env) (s : Signal) (p : Process) (w : World) (h : OsProcess)
    (hp : p.process = some h) : (p.signal env s w).2.calls = w.calls + 2 := by
  unfold Process.signal
  rw [hp]
  dsimp only
  split <;> rfl

/-- Stop of a running process when the call that delivers SIGTERM returns before
the grace period is over: `Manager.do` never runs its `failed` function. -/
theorem stopCore_no_escalation (env : Env) (p : Process) (g : Duration) (w : World)
    (hrun : p.isRunning = true) (hfast : env.now (w.calls + 2) < env.now w.calls + g) :
    Manager.stopCore env p g w = p.signal env SIGTERM w := by
  have hsome : p.process.isSome = true := by
    simp [Process.isRunning] at hrun; exact hrun.1
  obtain ⟨h, hp⟩ := Option.isSome_iff_exists.mp hsome
  have hc := signal_calls env SIGTERM p w h hp
  have hnf : ¬ env.now w.calls + g ≤ env.now (p.signal env SIGTERM w).2.calls := by
    rw [hc]
    intro hcon
    omega
  unfold Manager.stopCore Manager.do
  simp only [hrun, Bool.not_true, Bool.false_eq_true, if_false, if_neg hnf]

/-- C3 (the code at the failing input): Restart with a grace period of five
seconds is dispatched for the running process `u1` (pid 103).  Afterwards the
process has the same handle and pid, no file was opened and no process started,
no watcher was launched, and the journal ends with the event of the termination
signal: no start event follows it. -/
theorem C3_restart_running_does_not_spawn :
    (demoRunning.1.processes "u1").map Process.isRunning = some true ∧
      (demoRunning.1.processes "u1").map (fun p => p.process) = some (some ⟨103⟩) ∧
      ((demoRunning.1.handlerOperate demoEnv (.Restart ⟨"u1", 5 * Second⟩)
          demoRunning.2).1.processes "u1").map (fun p => p.process) = some (some ⟨103⟩) ∧
      (demoRunning.1.handlerOperate demoEnv (.Restart ⟨"u1", 5 * Second⟩) demoRunning.2).2.trace =
        demoRunning.2.trace ++ [.signal 103 SIGTERM true] ∧
      (demoRunning.1.handlerOperate demoEnv (.Restart ⟨"u1", 5 * Second⟩)
          demoRunning.2).2.watchers = demoRunning.2.watchers ∧
      ((demoRunning.1.handlerOperate demoEnv (.Restart ⟨"u1", 5 * Second⟩)
          demoRunning.2).1.processes "u1").map
          (fun p => (p.events.elems.filterMap id).map (fun e => e.message)) =
        some ["process: u1, open file: [/tmp/log] success",
              "process: u1, start success, pid: 103",
              "process: u1, signal 15 success, pid: 103"] := by
  decide

/-- C4 (the code at the failing input): Stop with a grace period of five seconds
is dispatched for the running process `u1` (pid 103), which does not exit.  The
call that delivers SIGTERM returns after two nanoseconds; the only signal ever
delivered is SIGTERM, the process is still running and its watcher is still
waiting when the dispatch has returned. -/
theorem C4_stop_never_escalates :
    (demoRunning.1.processes "u1").map Process.isRunning = some true ∧
      (demoRunning.1.handlerOperate demoEnv (.Stop ⟨"u1", 5 * Second, false⟩) demoRunning.2).2.trace =
        demoRunning.2.trace ++ [.signal 103 SIGTERM true] ∧
      (∀ ok : Bool, Effect.signal 103 SIGKILL ok ∉
        (demoRunning.1.handlerOperate demoEnv (.Stop ⟨"u1", 5 * Second, false⟩)
          demoRunning.2).2.trace) ∧
      ((demoRunning.1.handlerOperate demoEnv (.Stop ⟨"u1", 5 * Second, false⟩)
          demoRunning.2).1.processes "u1").map Process.isRunning = some true ∧
      (demoRunning.1.handlerOperate demoEnv (.Stop ⟨"u1", 5 * Second, false⟩)
          demoRunning.2).2.watchers = [⟨"u1", ⟨103⟩, [⟨"/tmp/log", 1⟩]⟩] := by
  decide

/-- C5: a Signal command for an identifier that is not registered, or whose
process has no live handle or has its exit status recorded, changes nothing: the
registry, every process, the trace of OS effects (no signal is delivered) and
the call counter are what they were. -/
theorem C5_signal_not_running_noop (env : Env) (m : Manager) (w : World) (opt : OperateSignal)
    (h : m.processes opt.UUID = none ∨
      ∃ p, m.processes opt.UUID = some p ∧ (p.process = none ∨ p.processState.isSome = true)) :
    m.handlerOperate env (.Signal opt) w = (m, w) := by
  unfold Manager.handlerOperate
  simp only [Manager.searchProcess]
  rcases h with h | ⟨p, hp, hnr⟩
  · rw [h]
  · rw [hp]
    have : p.isRunning = false := by
      rcases hnr with h1 | h2
      · simp [Process.isRunning, h1]
      · simp [Process.isRunning, h2]
    simp [Manager.signalProcess, this]

/-- The running process `u1` after its watcher has recorded its exit: a registered
process that is not running. -/
theorem C5_signal_not_running_noop_witness :
    (demoExited.processes "u1" = none ∨
      ∃ p, demoExited.processes "u1" = some p ∧
        (p.process = none ∨ p.processState.isSome = true)) ∧
      demoExited.handlerOperate demoEnv (.Signal ⟨"u1", SIGTERM⟩) demoRunning.2 =
        (demoExited, demoRunning.2) :=
  ⟨Or.inr ⟨_, rfl, Or.inr rfl⟩,
    C5_signal_not_running_noop demoEnv demoExited demoRunning.2 ⟨"u1", SIGTERM⟩
      (Or.inr ⟨_, rfl, Or.inr rfl⟩)⟩

theorem removeProcess_absent (m : Manager) (u : String) (h : m.processes u = none) :
    m.removeProcess u = m := by
  cases m with
  | mk processes ch cr =>
    simp only [Manager.removeProcess, Manager.mk.injEq, and_true]
    funext k
    split
    · rename_i hk; rw [hk]; exact h.symm
    · rfl

/-- C6 (the claim as stated fails): `u1` is registered and has never been
spawned.  Kill with Prune removes it from the registry, and Restart spawns it:
afterwards it has a live handle, an OS process has been started and the
journal is no longer empty. -/
theorem C6_not_running_dispatch_changes_state :
    (demoIdle.1.processes "u1").map Process.isRunning = some false ∧
      (demoIdle.1.processes "u1").isSome = true ∧
      (demoIdle.1.handlerOperate demoEnv (.Kill ⟨"u1", true⟩) demoIdle.2).1.processes "u1" = none ∧
      (demoIdle.1.handlerOperate demoEnv (.Stop ⟨"u1", Second, true⟩) demoIdle.2).1.processes "u1"
        = none ∧
      (demoIdle.1.processes "u1").map (fun p => p.process) = some none ∧
      ((demoIdle.1.handlerOperate demoEnv (.Restart ⟨"u1", Second⟩) demoIdle.2).1.processes
        "u1").map (fun p => p.process) = some (some ⟨103⟩) ∧
      (demoIdle.1.handlerOperate demoEnv (.Restart ⟨"u1", Second⟩) demoIdle.2).2.trace ≠
        demoIdle.2.trace := by
  decide

/-- C6 (amended): for an identifier that is unknown, or whose process is
registered but not running, Kill and Stop make no OS call and change no process;
they change the registry only when Prune is set, by removing the entry of that
identifier.  Restart is a no-op for an unknown identifier and, for a registered
process that is not running, is exactly one call of `Process.start` on it. -/
theorem C6_not_running_dispatch (env : Env) (m : Manager) (w : World) (u : String)
    (g : Duration) (prune : Bool) (hwf : m.WF)
    (h : ∀ p, m.processes u = some p → (p.process = none ∨ p.processState.isSome = true)) :
    m.handlerOperate env (.Kill ⟨u, prune⟩) w = (if prune then m.removeProcess u else m, w) ∧
      m.handlerOperate env (.Stop ⟨u, g, prune⟩) w = (if prune then m.removeProcess u else m, w) ∧
      m.handlerOperate env (.Restart ⟨u, g⟩) w =
        (match m.processes u with
         | none => (m, w)
         | some p => (m.write u (p.start env w).1, (p.start env w).2)) := by
  unfold Manager.handlerOperate
  simp only [Manager.searchProcess]
  cases hs : m.processes u with
  | none =>
    refine ⟨?_, ?_, rfl⟩ <;> (cases prune <;> simp [removeProcess_absent m u hs])
  | some p =>
    have hnr : p.isRunning = false := by
      rcases h p hs with h1 | h2
      · simp [Process.isRunning, h1]
      · simp [Process.isRunning, h2]
    have hu : p.uuid = u := hwf _ _ hs
    refine ⟨?_, ?_, ?_⟩
    · cases prune <;>
        simp [Manager.killProcess, hnr, write_self m u p hs, hu]
    · cases prune <;>
        simp [Manager.stopProcess, Manager.stopCore, hnr, write_self m u p hs, hu]
    · show m.restartProcess env u p g w = _
      rw [restartProcess_eq]
      simp [Manager.stopCore, Manager.startProcess, Manager.startProcessRest, Manager.startProcessTest, hnr, write_write]

/-- The registered, never spawned process `u1` satisfies the hypotheses of the
amended C6 statement. -/
theorem C6_not_running_dispatch_witness :
    demoIdle.1.WF ∧
      (∀ p, demoIdle.1.processes "u1" = some p →
        (p.process = none ∨ p.processState.isSome = true)) ∧
      (demoIdle.1.handlerOperate demoEnv (.Kill ⟨"u1", true⟩) demoIdle.2 =
          (if true then demoIdle.1.removeProcess "u1" else demoIdle.1, demoIdle.2) ∧
        demoIdle.1.handlerOperate demoEnv (.Stop ⟨"u1", Second, true⟩) demoIdle.2 =
          (if true then demoIdle.1.removeProcess "u1" else demoIdle.1, demoIdle.2) ∧
        demoIdle.1.handlerOperate demoEnv (.Restart ⟨"u1", Second⟩) demoIdle.2 =
          (match demoIdle.1.processes "u1" with
           | none => (demoIdle.1, demoIdle.2)
           | some p => (demoIdle.1.write "u1" (p.start demoEnv demoIdle.2).1,
               (p.start demoEnv demoIdle.2).2))) :=
  ⟨demoIdle_WF, demoIdle_not_running,
    C6_not_running_dispatch demoEnv demoIdle.1 demoIdle.2 "u1" Second true demoIdle_WF
      demoIdle_not_running⟩

/-- C7 (the claim as stated fails): `uuid.New` returns `u1` while `u1` is
registered and running with pid 103.  Start does not add an entry under a new
identifier: it replaces the entry of `u1` by the new process, which it spawns
with pid 108. -/
theorem C7_repeated_identifier_replaces_entry :
    demoEnv.uuidNew demoRunning.2.calls = "u1" ∧
      (demoRunning.1.processes "u1").map (fun p => p.process) = some (some ⟨103⟩) ∧
      ((demoRunning.1.handlerOperate demoEnv (.Start demoStart) demoRunning.2).1.processes
        "u1").map (fun p => p.process) = some (some ⟨108⟩) ∧
      (demoRunning.1.handlerOperate demoEnv (.Start demoStart) demoRunning.2).1.processes "u1" ≠
        demoRunning.1.processes "u1" := by
  decide

/-- C7 (amended): dispatching Start registers the new process, with exactly the
given attributes, under the identifier `uuid.New` returns, before `Process.start`
is called, and leaves the slot of every other identifier as it was; the
identifier is not compared with the registry, so every existing entry is
untouched when it is not registered yet, and otherwise its entry is the one
replaced.  With a cron expression nothing is spawned during the dispatch: no OS
effect, no watcher, and the registered process has no live handle, no exit
status and an empty journal.  Without one, the result is exactly one call of
`Process.start` on the process just registered. -/
theorem C7_start_registers_under_returned_identifier (env : Env) (m : Manager) (w : World)
    (opt : OperateStart) :
    let u := env.uuidNew w.calls
    let a : Attributes :=
      ⟨opt.Dir, opt.Cmd, opt.Argv, opt.Env, opt.Files, opt.Restart, opt.Cron⟩
    let c := m.createProcess env opt.Dir opt.Cmd opt.Argv opt.Env opt.Files opt.Restart opt.Cron w
    let r := m.handlerOperate env (.Start opt) w
    (c.1 = newProcess u a ∧ c.2.1.processes u = some (newProcess u a) ∧
        c.2.2.trace = w.trace ∧ c.2.2.watchers = w.watchers) ∧
      (∃ p, r.1.processes u = some p ∧ p.uuid = u ∧ p.attributes = a) ∧
      (∀ k, k ≠ u → r.1.processes k = m.processes k) ∧
      (m.processes u = none → ∀ k q, m.processes k = some q → r.1.processes k = some q) ∧
      (opt.Cron ≠ "" →
        r.1.processes u = some (newProcess u a) ∧ r.2.trace = w.trace ∧
          r.2.watchers = w.watchers ∧
          ((newProcess u a).metadata env r.2).2.2.Events = []) ∧
      (opt.Cron = "" →
        r.1.processes u = some ((newProcess u a).start env c.2.2).1 ∧
          r.2 = ((newProcess u a).start env c.2.2).2) := by
  intro u a c r
  have hc : c.1 = newProcess u a := rfl
  have hr : r = (if opt.Cron ≠ "" then (c.2.1.cronAddFunc env opt.Cron c.1.uuid, c.2.2)
      else ((c.2.1.write c.1.uuid (Manager.startProcess env c.1 c.2.2).1),
        (Manager.startProcess env c.1 c.2.2).2)) := rfl
  have hcp : ∀ k, c.2.1.processes k = if k = u then some (newProcess u a) else m.processes k :=
    fun k => rfl
  have hcron : ∀ k, (c.2.1.cronAddFunc env opt.Cron c.1.uuid).processes k = c.2.1.processes k := by
    intro k
    unfold Manager.cronAddFunc
    split <;> rfl
  have hsp : Manager.startProcess env c.1 c.2.2 = (newProcess u a).start env c.2.2 := by
    rw [hc]
    simp [Manager.startProcess, Manager.startProcessRest, Manager.startProcessTest, Process.isRunning, newProcess]
  have hcu : c.1.uuid = u := rfl
  have hother : ∀ k, k ≠ u → r.1.processes k = m.processes k := by
    intro k hk
    by_cases hcr : opt.Cron = ""
    · rw [hr, hsp, hcu]; simp [hcr, Manager.write, hk, hcp]
    · rw [hr]; simp [hcr, hcron, hcp, hk]
  refine ⟨⟨hc, by simp [hcp], rfl, rfl⟩, ?_, hother, ?_, ?_, ?_⟩
  · by_cases hcr : opt.Cron = ""
    · refine ⟨((newProcess u a).start env c.2.2).1, ?_, ?_, ?_⟩
      · rw [hr, hsp, hcu]; simp [hcr, Manager.write]
      · exact (start_uuid env _ _).1
      · exact (start_uuid env _ _).2
    · refine ⟨newProcess u a, ?_, rfl, rfl⟩
      rw [hr]; simp [hcr, hcron, hcp]
  · intro hfresh k q hq
    have hk : k ≠ u := by
      intro hku
      rw [hku] at hq
      rw [hfresh] at hq
      cases hq
    rw [hother k hk, hq]
  · intro hcr
    refine ⟨?_, ?_, ?_, ?_⟩
    · rw [hr]; simp [hcr, hcron, hcp]
    · rw [hr]; simp [hcr]; rfl
    · rw [hr]; simp [hcr]; rfl
    · rw [(metadata_events env _ _).2]
      rfl
  · intro hcr
    refine ⟨?_, ?_⟩
    · rw [hr, hsp, hcu]; simp [hcr, Manager.write]
    · rw [hr, hsp]; simp [hcr]

/-- Start dispatched on the engine that runs `u1`, with `u2` as the identifier
`uuid.New` returns: `u2` is not registered, the entry of `u1` is untouched, and
the new process is registered under `u2` with the given attributes. -/
theorem C7_start_registers_under_returned_identifier_witness :
    demoRunning.1.processes
        (({ demoEnv with uuidNew := fun _ => "u2" } : Env).uuidNew demoRunning.2.calls) = none ∧
      (∀ k q, demoRunning.1.processes k = some q →
        (demoRunning.1.handlerOperate { demoEnv with uuidNew := fun _ => "u2" } (.Start demoStart)
          demoRunning.2).1.processes k = some q) ∧
      (demoRunning.1.processes "u1").isSome = true ∧
      (∃ p, (demoRunning.1.handlerOperate { demoEnv with uuidNew := fun _ => "u2" }
          (.Start demoStart) demoRunning.2).1.processes "u2" = some p ∧ p.uuid = "u2" ∧
        p.attributes = ⟨".", "/bin/sleep", ["sleep", "100"], [], ["/tmp/log"], false, ""⟩) :=
  ⟨by decide,
    (C7_start_registers_under_returned_identifier { demoEnv with uuidNew := fun _ => "u2" }
      demoRunning.1 demoRunning.2 demoStart).2.2.2.1 (by decide),
    by decide,
    (C7_start_registers_under_returned_identifier { demoEnv with uuidNew := fun _ => "u2" }
      demoRunning.1 demoRunning.2 demoStart).2.1⟩

/-- C8 (the code at the failing input): two start actions on the new process `u1`
both make their `isRunning` test before either of them goes on.  The first
spawns pid 102, so the process is running when the second goes on; the second
spawns all the same: the handle is replaced by pid 106, the files are opened a
second time and two watchers wait. -/
theorem C8_interleaved_start_actions_spawn_twice :
    Manager.startProcessTest (newProcess "u1" demoCronAttributes) = false ∧
      demoRaceFirst.1.isRunning = true ∧
      demoRaceFirst.1.process = some ⟨102⟩ ∧
      demoRaceSecond.1.process = some ⟨106⟩ ∧
      demoRaceSecond.2.trace =
        [.openFile "/tmp/log" true,
         .startProcess demoCronAttributes [⟨"/tmp/log", 0⟩] (some 102),
         .openFile "/tmp/log" true,
         .startProcess demoCronAttributes [⟨"/tmp/log", 4⟩] (some 106)] ∧
      demoRaceSecond.2.watchers =
        [⟨"u1", ⟨102⟩, [⟨"/tmp/log", 0⟩]⟩, ⟨"u1", ⟨106⟩, [⟨"/tmp/log", 4⟩]⟩] := by
  decide

/-! ## Spawn -/

theorem openFiles_watchers (env : Env) :
    ∀ (names : List String) (files : List File) (w : World),
      (Process.openFiles env names files w).2.watchers = w.watchers := by
  intro names
  induction names with
  | nil => intro files w; rfl
  | cons n ns ih =>
    intro files w
    unfold Process.openFiles
    split
    · rfl
    · rw [ih]; rfl

/-- When every file opens and `os.StartProcess` fails, `Process.start` leaves the
handle and the exit status as they were and has replaced `files` by the handles
it has just opened. -/
theorem start_exec_failure (env : Env) (p : Process) (w w1 : World) (files : List File)
    (err : String) (ho : Process.openFiles env p.attributes.files [] w = (.ok files, w1))
    (hs : env.startProcess (w1.calls + 1) p.attributes files = .error err) :
    (p.start env w).1.process = p.process ∧ (p.start env w).1.processState = p.processState ∧
      (p.start env w).1.files = files ∧ (p.start env w).2.watchers = w.watchers := by
  have hw : w1.watchers = w.watchers := by
    have := openFiles_watchers env p.attributes.files [] w
    rw [ho] at this
    exact this
  unfold Process.start
  rw [ho]
  simp only [World.step]
  rw [hs]
  exact ⟨rfl, rfl, rfl, hw⟩

/-- C9 (the code at the failing input): a new process whose file opens and whose
`os.StartProcess` call fails.  The handle and the exit status are unchanged and
an error event is journaled, but the list of open file handles is no longer what
it was: it holds the handle opened during the call, which nothing closes. -/
theorem C9_failed_start_keeps_opened_files :
    (newProcess "u1" demoAttributes).files = [] ∧
      ((newProcess "u1" demoAttributes).start demoEnvNoExec demoWorld).1.files =
        [⟨"/tmp/log", 0⟩] ∧
      ((newProcess "u1" demoAttributes).start demoEnvNoExec demoWorld).1.process = none ∧
      ((newProcess "u1" demoAttributes).start demoEnvNoExec demoWorld).1.processState = none ∧
      ((newProcess "u1" demoAttributes).start demoEnvNoExec demoWorld).2.trace =
        [.openFile "/tmp/log" true, .startProcess demoAttributes [⟨"/tmp/log", 0⟩] none] ∧
      (((newProcess "u1" demoAttributes).start demoEnvNoExec demoWorld).1.events.elems.filterMap
          id).map (fun e => (e.kind, e.message)) =
        [(.eventKindData, "process: u1, open file: [/tmp/log] success"),
         (.eventKindErr, "process: u1, start failed: fork/exec /bin/sleep: permission denied")] := by
  decide

/-! ## The run state of a process -/

theorem closeFiles_watchers :
    ∀ (files : List File) (w : World), (Process.closeFiles files w).watchers = w.watchers := by
  intro files
  induction files with
  | nil => intro w; rfl
  | cons f fs ih => intro w; unfold Process.closeFiles; rw [ih]; rfl

theorem watcher_fields (env : Env) (p : Process) (h : OsProcess) (files : List File)
    (res : Except String ProcessState) (w : World) :
    (Process.watcher env p h files res w).1.process = p.process ∧
      (Process.watcher env p h files res w).1.uuid = p.uuid ∧
      (Process.watcher env p h files res w).1.attributes = p.attributes := by
  unfold Process.watcher
  cases res <;> exact ⟨rfl, rfl, rfl⟩

theorem start_process_cases (env : Env) (p : Process) (w : World) :
    ((p.start env w).1.process = p.process ∧ (p.start env w).1.processState = p.processState ∧
        (p.start env w).2.watchers = w.watchers) ∨
      ((p.start env w).1.process.isSome = true ∧ (p.start env w).1.processState = none) := by
  have hw := openFiles_watchers env p.attributes.files [] w
  unfold Process.start
  split
  · rename_i err w1 heq
    rw [heq] at hw
    exact Or.inl ⟨rfl, rfl, hw⟩
  · rename_i files w1 heq
    rw [heq] at hw
    dsimp only
    split
    · exact Or.inl ⟨rfl, rfl, hw⟩
    · exact Or.inr ⟨rfl, rfl⟩

theorem act_inv (env : Env) (s : Process × World) (a : Action) (h : Process.Inv s) :
    Process.Inv (Process.act env s a) := by
  obtain ⟨p, w⟩ := s
  cases a with
  | start =>
    show Process.Inv (p.start env w)
    have hu := (start_uuid env p w).1
    rcases start_process_cases env p w with ⟨h1, h2, h3⟩ | ⟨h1, h2⟩
    · refine ⟨?_, ?_⟩
      · rw [h1, h2]; exact h.1
      · rw [h1, h3, hu]; exact h.2
    · refine ⟨fun _ => h1, ?_⟩
      intro hn
      rw [hn] at h1
      exact absurd h1 (by decide)
  | signal sg =>
    show Process.Inv (p.signal env sg w)
    have hf := signal_fields env sg p w
    have hu := (signal_uuid env sg p w).1
    refine ⟨?_, ?_⟩
    · rw [hf.1, hf.2.1]; exact h.1
    · rw [hf.1, hf.2.2.2, hu]; exact h.2
  | reap i res =>
    have hact : Process.act env (p, w) (.reap i res) =
        (match w.watchers.get? i with
         | none => (p, w)
         | some g =>
           if g.uuid = p.uuid then
             ((Process.watcher env p g.process g.files res
                 { w with watchers := w.watchers.eraseIdx i }).1,
              (Process.watcher env p g.process g.files res
                 { w with watchers := w.watchers.eraseIdx i }).2.1)
           else (p, w)) := rfl
    rw [hact]
    cases hg : w.watchers.get? i with
    | none => exact h
    | some g =>
      dsimp only
      by_cases hgu : g.uuid = p.uuid
      · rw [if_pos hgu]
        have hmem : g ∈ w.watchers := List.get?_mem hg
        have hsome : p.process.isSome = true := by
          cases hp : p.process with
          | none => exact absurd hgu (h.2 hp g hmem)
          | some x => rfl
        have hf := (watcher_fields env p g.process g.files res
          { w with watchers := w.watchers.eraseIdx i }).1
        refine ⟨fun _ => ?_, ?_⟩
        · show (Process.watcher env p g.process g.files res _).1.process.isSome = true
          rw [hf]; exact hsome
        · intro hn
          have hn2 : (Process.watcher env p g.process g.files res
            { w with watchers := w.watchers.eraseIdx i }).1.process = none := hn
          rw [hf] at hn2
          rw [hn2] at hsome
          exact absurd hsome (by decide)
      · rw [if_neg hgu]; exact h

theorem run_inv (env : Env) (acts : List Action) :
    ∀ s : Process × World, Process.Inv s → Process.Inv (Process.run env acts s) := by
  induction acts with
  | nil => intro s h; exact h
  | cons a as ih => intro s h; exact ih _ (act_inv env s a h)

/-- C10 (the claim as stated fails): a new process is spawned and its watcher
records the exit.  The exit status is recorded and the live handle is still
present: the exit has not cleared it. -/
theorem C10_exit_keeps_handle :
    (Process.run demoEnv [.start, .reap 0 (.ok ⟨0, "exit status 0"⟩)]
        (newProcess "u1" demoAttributes, demoWorld)).1.process = some ⟨102⟩ ∧
      (Process.run demoEnv [.start, .reap 0 (.ok ⟨0, "exit status 0"⟩)]
        (newProcess "u1" demoAttributes, demoWorld)).1.processState =
        some ⟨0, "exit status 0"⟩ := by
  decide

/-- C10 (amended): in every state of a process reachable from its creation by
spawns, signal deliveries and exit reaping, exactly one of three cases holds:
no handle and no exit status; a handle and no exit status; a handle and an exit
status.  An exit status is never present without a handle, and reaping an exit
never changes the handle. -/
theorem C10_run_state_cases (env : Env) (uuid : String) (a : Attributes) (w : World)
    (acts : List Action) (hw : ∀ g ∈ w.watchers, g.uuid ≠ uuid) :
    let s := Process.run env acts (newProcess uuid a, w)
    ((s.1.process = none ∧ s.1.processState = none) ∨
        (s.1.process.isSome = true ∧ s.1.processState = none) ∨
        (s.1.process.isSome = true ∧ s.1.processState.isSome = true)) ∧
      ¬ (s.1.process = none ∧ s.1.processState.isSome = true) ∧
      (∀ (h : OsProcess) (files : List File) (res : Except String ProcessState) (w1 : World),
        (Process.watcher env s.1 h files res w1).1.process = s.1.process) := by
  intro s
  have h0 : Process.Inv (newProcess uuid a, w) :=
    ⟨fun h => absurd h (by simp [newProcess]), fun _ => hw⟩
  have hi : Process.Inv s := run_inv env acts _ h0
  refine ⟨?_, ?_, fun h files res w1 => (watcher_fields env s.1 h files res w1).1⟩
  · cases hp : s.1.process with
    | none =>
      cases hs : s.1.processState with
      | none => exact Or.inl ⟨rfl, rfl⟩
      | some st =>
        have := hi.1 (by rw [hs]; rfl)
        rw [hp] at this
        exact absurd this (by decide)
    | some x =>
      cases hs : s.1.processState with
      | none => exact Or.inr (Or.inl ⟨rfl, rfl⟩)
      | some st => exact Or.inr (Or.inr ⟨rfl, rfl⟩)
  · intro ⟨hp, hs⟩
    have := hi.1 hs
    rw [hp] at this
    exact absurd this (by decide)

/-- A world without watchers satisfies the hypothesis of the amended C10
statement; the run is a spawn followed by the reaping of its exit. -/
theorem C10_run_state_cases_witness :
    (∀ g ∈ demoWorld.watchers, g.uuid ≠ "u1") ∧
      ¬ ((Process.run demoEnv [.start, .reap 0 (.ok ⟨0, "exit status 0"⟩)]
          (newProcess "u1" demoAttributes, demoWorld)).1.process = none ∧
        (Process.run demoEnv [.start, .reap 0 (.ok ⟨0, "exit status 0"⟩)]
          (newProcess "u1" demoAttributes, demoWorld)).1.processState.isSome = true) :=
  ⟨fun g hg => absurd hg (List.not_mem_nil g),
    (C10_run_state_cases demoEnv "u1" demoAttributes demoWorld
      [.start, .reap 0 (.ok ⟨0, "exit status 0"⟩)]
      (fun g hg => absurd hg (List.not_mem_nil g))).2.1⟩

/-! ## The signal command -/

theorem signalSwitch_listed (k : SignalConsts) (argv : SignalArgv) :
    ∀ row ∈ listedSignals k, signalSwitch k row.1 argv = { argv with Signal := row.2 } := by
  intro row hrow
  simp only [listedSignals, List.mem_cons, List.mem_singleton, List.not_mem_nil, or_false] at hrow
  rcases hrow with h | h | h | h | h | h | h | h | h | h | h | h | h | h | h | h | h | h | h |
    h | h | h | h | h | h | h | h | h | h | h | h | h <;> (subst h; rfl)

theorem signalSwitch_other (k : SignalConsts) (upper : String) (argv : SignalArgv)
    (h : ∀ row ∈ listedSignals k, upper ≠ row.1) : signalSwitch k upper argv = argv := by
  simp only [listedSignals, List.mem_cons, List.mem_singleton, List.not_mem_nil, or_false,
    forall_eq_or_imp, forall_eq] at h
  unfold signalSwitch
  split <;> first | rfl | (exfalso; simp_all)

theorem sig_prefix_not_listed (k : SignalConsts) (n : String) :
    ∀ row ∈ listedSignals k, "SIG" ++ n ≠ row.1 := by
  intro row hrow heq
  have hd := congrArg String.data heq
  simp only [listedSignals, List.mem_cons, List.mem_singleton, List.not_mem_nil, or_false] at hrow
  rcases hrow with h | h | h | h | h | h | h | h | h | h | h | h | h | h | h | h | h | h | h |
    h | h | h | h | h | h | h | h | h | h | h | h | h <;>
    (subst h; simp [String.data_append] at hd)

/-- C13: the request of the signal command depends on the flag value only through
its upper-cased form.  If that form is one of the listed names, the request
carries the signal of that name; for every other string, among them the empty
string and every name that starts with SIG, it carries the signal value 0.  The
identifier is passed through. -/
theorem C13_signal_name_mapping (toUpper : String → String) (k : SignalConsts)
    (uuid s : String) :
    (newSignalArgv toUpper k uuid s).UUID = uuid ∧
      (∀ row ∈ listedSignals k, toUpper s = row.1 →
        (newSignalArgv toUpper k uuid s).Signal = row.2) ∧
      ((∀ row ∈ listedSignals k, toUpper s ≠ row.1) →
        (newSignalArgv toUpper k uuid s).Signal = 0) ∧
      (toUpper s = "" → (newSignalArgv toUpper k uuid s).Signal = 0) ∧
      (∀ n : String, toUpper s = "SIG" ++ n → (newSignalArgv toUpper k uuid s).Signal = 0) ∧
      (∀ s1 : String, toUpper s1 = toUpper s →
        newSignalArgv toUpper k uuid s1 = newSignalArgv toUpper k uuid s) := by
  have hlisted : ∀ row ∈ listedSignals k, toUpper s = row.1 →
      newSignalArgv toUpper k uuid s = { UUID := uuid, Signal := row.2 } := by
    intro row hrow heq
    unfold newSignalArgv
    rw [heq, signalSwitch_listed k _ row hrow]
  have hother : (∀ row ∈ listedSignals k, toUpper s ≠ row.1) →
      newSignalArgv toUpper k uuid s = { UUID := uuid, Signal := 0 } := by
    intro h
    unfold newSignalArgv
    rw [signalSwitch_other k _ _ h]
  refine ⟨?_, ?_, ?_, ?_, ?_, ?_⟩
  · by_cases h : ∃ row ∈ listedSignals k, toUpper s = row.1
    · obtain ⟨row, hrow, heq⟩ := h
      rw [hlisted row hrow heq]
    · have h2 : ∀ row ∈ listedSignals k, toUpper s ≠ row.1 := by
        intro row hrow heq
        exact h ⟨row, hrow, heq⟩
      rw [hother h2]
  · intro row hrow heq
    rw [hlisted row hrow heq]
  · intro h
    rw [hother h]
  · intro he
    have h2 : ∀ row ∈ listedSignals k, toUpper s ≠ row.1 := by
      intro row hrow heq
      rw [he] at heq
      simp only [listedSignals, List.mem_cons, List.mem_singleton, List.not_mem_nil,
        or_false] at hrow
      rcases hrow with h | h | h | h | h | h | h | h | h | h | h | h | h | h | h | h | h | h |
        h | h | h | h | h | h | h | h | h | h | h | h | h | h <;>
        (subst h; dsimp only at heq; exact absurd heq (by decide))
    rw [hother h2]
  · intro n hn
    have h2 : ∀ row ∈ listedSignals k, toUpper s ≠ row.1 := by
      rw [hn]
      exact sig_prefix_not_listed k n
    rw [hother h2]
  · intro s1 h1
    unfold newSignalArgv
    rw [h1]

/-- The flag value `term` with the upper-casing of ASCII: the request carries SIGTERM. -/
theorem C13_signal_name_mapping_witness :
    ("TERM", SIGTERM) ∈ listedSignals demoSignals ∧ upperASCII "term" = "TERM" ∧
      (newSignalArgv upperASCII demoSignals "u1" "term").Signal = SIGTERM :=
  ⟨by decide, by decide,
    (C13_signal_name_mapping upperASCII demoSignals "u1" "term").2.1 ("TERM", SIGTERM)
      (by decide) (by decide)⟩

/-! ## Identity and attributes after creation -/

theorem prune_slot (m : Manager) (key : String) (q : Process) (prune : Bool) (k : String)
    (x : Process)
    (h : (if prune = true then (m.write key q).removeProcess q.uuid
      else m.write key q).processes k = some x) :
    (k = key ∧ x = q) ∨ m.processes k = some x := by
  cases prune
  · simp only [Bool.false_eq_true, if_false, Manager.write] at h
    by_cases hk : k = key
    · rw [if_pos hk] at h
      cases h
      exact Or.inl ⟨hk, rfl⟩
    · rw [if_neg hk] at h
      exact Or.inr h
  · simp only [if_true, Manager.write, Manager.removeProcess] at h
    by_cases hu : k = q.uuid
    · rw [if_pos hu] at h
      cases h
    · rw [if_neg hu] at h
      by_cases hk : k = key
      · rw [if_pos hk] at h
        cases h
        exact Or.inl ⟨hk, rfl⟩
      · rw [if_neg hk] at h
        exact Or.inr h

theorem handlerOperate_slot (env : Env) (c : Operate) (m : Manager) (w : World)
    (hfresh : ∀ opt, c = .Start opt → m.processes (env.uuidNew w.calls) = none)
    (k : String) (p q : Process) (hp : m.processes k = some p)
    (hq : (m.handlerOperate env c w).1.processes k = some q) :
    q.uuid = p.uuid ∧ q.attributes = p.attributes := by
  have hsame : m.processes k = some q → q.uuid = p.uuid ∧ q.attributes = p.attributes := by
    intro h
    rw [hp] at h
    cases h
    exact ⟨rfl, rfl⟩
  cases c with
  | Start opt =>
    have hk : k ≠ env.uuidNew w.calls := by
      intro h
      rw [h, hfresh opt rfl] at hp
      cases hp
    apply hsame
    rw [← hq]
    unfold Manager.handlerOperate
    simp only [Manager.createProcess]
    split
    · unfold Manager.cronAddFunc
      split <;> simp [Manager.write, hk]
    · simp [Manager.write, hk]
  | Kill opt =>
    unfold Manager.handlerOperate at hq
    simp only [Manager.searchProcess] at hq
    cases hs : m.processes opt.UUID with
    | none => rw [hs] at hq; exact hsame hq
    | some p1 =>
      rw [hs] at hq
      rcases prune_slot m opt.UUID _ opt.Prune k q hq with ⟨hk, hx⟩ | h
      · rw [hk, hs] at hp
        cases hp
        rw [hx]
        split
        · exact ⟨rfl, rfl⟩
        · exact signal_uuid env SIGKILL p w
      · exact hsame h
  | Stop opt =>
    unfold Manager.handlerOperate at hq
    simp only [Manager.searchProcess] at hq
    cases hs : m.processes opt.UUID with
    | none => rw [hs] at hq; exact hsame hq
    | some p1 =>
      rw [hs] at hq
      rcases prune_slot m opt.UUID _ opt.Prune k q hq with ⟨hk, hx⟩ | h
      · rw [hk, hs] at hp
        cases hp
        rw [hx]
        exact stopCore_uuid env p _ w
      · exact hsame h
  | Restart opt =>
    unfold Manager.handlerOperate at hq
    simp only [Manager.searchProcess] at hq
    cases hs : m.processes opt.UUID with
    | none => rw [hs] at hq; exact hsame hq
    | some p1 =>
      rw [hs] at hq
      simp only [restartProcess_eq, Manager.write] at hq
      by_cases hk : k = opt.UUID
      · rw [if_pos hk] at hq
        cases hq
        rw [hk, hs] at hp
        cases hp
        have h1 := startProcess_uuid env (Manager.stopCore env p opt.Gracefully w).1
          (Manager.stopCore env p opt.Gracefully w).2
        have h2 := stopCore_uuid env p opt.Gracefully w
        exact ⟨h1.1.trans h2.1, h1.2.trans h2.2⟩
      · simp only [if_neg hk] at hq
        exact hsame hq
  | Signal opt =>
    unfold Manager.handlerOperate at hq
    simp only [Manager.searchProcess] at hq
    cases hs : m.processes opt.UUID with
    | none => rw [hs] at hq; exact hsame hq
    | some p1 =>
      rw [hs] at hq
      simp only [Manager.signalProcess] at hq
      split at hq
      · exact hsame hq
      · simp only [Manager.write] at hq
        by_cases hk : k = opt.UUID
        · rw [if_pos hk] at hq
          cases hq
          rw [hk, hs] at hp
          cases hp
          exact signal_uuid env _ p w
        · rw [if_neg hk] at hq
          exact hsame hq
  | other => exact hsame hq

theorem act_uuid (env : Env) (s : Process × World) (a : Action) :
    (Process.act env s a).1.uuid = s.1.uuid ∧
      (Process.act env s a).1.attributes = s.1.attributes := by
  obtain ⟨p, w⟩ := s
  cases a with
  | start => exact start_uuid env p w
  | signal sg => exact signal_uuid env sg p w
  | reap i res =>
    have hact : Process.act env (p, w) (.reap i res) =
        (match w.watchers.get? i with
         | none => (p, w)
         | some g =>
           if g.uuid = p.uuid then
             ((Process.watcher env p g.process g.files res
                 { w with watchers := w.watchers.eraseIdx i }).1,
              (Process.watcher env p g.process g.files res
                 { w with watchers := w.watchers.eraseIdx i }).2.1)
           else (p, w)) := rfl
    rw [hact]
    cases w.watchers.get? i with
    | none => exact ⟨rfl, rfl⟩
    | some g =>
      dsimp only
      split
      · exact (watcher_fields env p g.process g.files res _).2
      · exact ⟨rfl, rfl⟩

theorem run_uuid (env : Env) (acts : List Action) :
    ∀ s : Process × World, (Process.run env acts s).1.uuid = s.1.uuid ∧
      (Process.run env acts s).1.attributes = s.1.attributes := by
  induction acts with
  | nil => intro s; exact ⟨rfl, rfl⟩
  | cons a as ih =>
    intro s
    have h1 := ih (Process.act env s a)
    have h2 := act_uuid env s a
    exact ⟨h1.1.trans h2.1, h1.2.trans h2.2⟩

/-- C12: the uuid and the attributes of a process are never written after its
creation.  A dispatch leaves them as they were in every registry slot that is
occupied before and after (for Start, given that the new identifier is not
registered yet); so do spawn, signal delivery, exit reaping and `metadata`, and
any sequence of them; and `metadata` reports exactly the uuid and the seven
attributes of the process. -/
theorem C12_identity_and_attributes_fixed (env : Env) (c : Operate) (m : Manager) (w : World)
    (p : Process) (w1 : World) (sg : Signal) (h : OsProcess) (files : List File)
    (res : Except String ProcessState) (acts : List Action)
    (hfresh : ∀ opt, c = .Start opt → m.processes (env.uuidNew w.calls) = none) :
    (∀ k p0 q, m.processes k = some p0 → (m.handlerOperate env c w).1.processes k = some q →
        q.uuid = p0.uuid ∧ q.attributes = p0.attributes) ∧
      ((p.start env w1).1.uuid = p.uuid ∧ (p.start env w1).1.attributes = p.attributes) ∧
      ((p.signal env sg w1).1.uuid = p.uuid ∧
        (p.signal env sg w1).1.attributes = p.attributes) ∧
      ((Process.watcher env p h files res w1).1.uuid = p.uuid ∧
        (Process.watcher env p h files res w1).1.attributes = p.attributes) ∧
      ((p.metadata env w1).1.uuid = p.uuid ∧ (p.metadata env w1).1.attributes = p.attributes) ∧
      ((Process.run env acts (p, w1)).1.uuid = p.uuid ∧
        (Process.run env acts (p, w1)).1.attributes = p.attributes) ∧
      ((p.metadata env w1).2.2.UUID = p.uuid ∧
        (p.metadata env w1).2.2.Dir = p.attributes.dir ∧
        (p.metadata env w1).2.2.Cmd = p.attributes.cmd ∧
        (p.metadata env w1).2.2.Argv = p.attributes.argv ∧
        (p.metadata env w1).2.2.Env = p.attributes.env ∧
        (p.metadata env w1).2.2.Files = p.attributes.files ∧
        (p.metadata env w1).2.2.Restart = p.attributes.restart ∧
        (p.metadata env w1).2.2.Cron = p.attributes.cron) := by
  refine ⟨fun k p0 q hp hq => handlerOperate_slot env c m w hfresh k p0 q hp hq,
    start_uuid env p w1, signal_uuid env sg p w1, (watcher_fields env p h files res w1).2,
    ?_, run_uuid env acts (p, w1), ⟨rfl, rfl, rfl, rfl, rfl, rfl, rfl, rfl⟩⟩
  rw [(metadata_events env p w1).1]
  exact ⟨rfl, rfl⟩

/-- Start dispatched on the engine that runs `u1`, with `u2` as the new
identifier: the slot of `u1` keeps its uuid and attributes, and `metadata`
reports the values given at creation. -/
theorem C12_identity_and_attributes_fixed_witness :
    (∀ opt, Operate.Start demoStart = .Start opt →
        demoRunning.1.processes
          (({ demoEnv with uuidNew := fun _ => "u2" } : Env).uuidNew demoRunning.2.calls) = none) ∧
      (∀ k p0 q, demoRunning.1.processes k = some p0 →
        (demoRunning.1.handlerOperate { demoEnv with uuidNew := fun _ => "u2" }
          (.Start demoStart) demoRunning.2).1.processes k = some q →
        q.uuid = p0.uuid ∧ q.attributes = p0.attributes) ∧
      (demoRunningProcess.metadata demoEnv demoRunning.2).2.2.Cmd = "/bin/sleep" :=
  ⟨fun _ _ => by decide,
    (C12_identity_and_attributes_fixed { demoEnv with uuidNew := fun _ => "u2" }
      (.Start demoStart) demoRunning.1 demoRunning.2 demoRunningProcess demoRunning.2 SIGTERM
      ⟨103⟩ [] (.ok ⟨0, ""⟩) [] (fun _ _ => by decide)).1,
    by decide⟩

/-! ## The command loop -/

theorem handlerOperate_channel (env : Env) (c : Operate) (m : Manager) (w : World)
    (q : List Operate) :
    Manager.handlerOperate env c { m with operateChannel := q } w =
      ({ (Manager.handlerOperate env c m w).1 with operateChannel := q },
        (Manager.handlerOperate env c m w).2) := by
  cases c with
  | Start opt =>
    simp only [Manager.handlerOperate, Manager.createProcess, Manager.write, Manager.cronAddFunc]
    split
    · split <;> rfl
    · rfl
  | Kill opt =>
    simp only [Manager.handlerOperate, Manager.searchProcess]
    cases m.processes opt.UUID with
    | none => rfl
    | some p =>
      simp only [Manager.killProcess, Manager.write, Manager.removeProcess]
      split <;> rfl
  | Stop opt =>
    simp only [Manager.handlerOperate, Manager.searchProcess]
    cases m.processes opt.UUID with
    | none => rfl
    | some p =>
      simp only [Manager.stopProcess, Manager.write, Manager.removeProcess]
      split <;> rfl
  | Restart opt =>
    simp only [Manager.handlerOperate, Manager.searchProcess]
    cases m.processes opt.UUID with
    | none => rfl
    | some p =>
      simp only [restartProcess_eq, Manager.write]
  | Signal opt =>
    simp only [Manager.handlerOperate, Manager.searchProcess]
    cases m.processes opt.UUID with
    | none => rfl
    | some p =>
      simp only [Manager.signalProcess, Manager.write]
      split <;> rfl
  | other => rfl

theorem handlerOperate_keeps_channel (env : Env) (c : Operate) (m : Manager) (w : World) :
    (Manager.handlerOperate env c m w).1.operateChannel = m.operateChannel := by
  have h := handlerOperate_channel env c m w m.operateChannel
  have h2 := congrArg (fun x => x.1.operateChannel) h
  exact h2

theorem Operate_ok (m m1 : Manager) (c : Operate) (tf : Bool) (h : m.Operate c tf = .ok m1) :
    m1 = { m with operateChannel := m.operateChannel ++ [c] } ∧
      m.operateChannel.length < operateChannelCap := by
  unfold Manager.Operate at h
  split at h
  · rename_i hc
    cases h
    exact ⟨rfl, hc.2⟩
  · cases h

theorem Run_fifo (env : Env) (sched : List Tick) :
    ∀ s : RunState, ∃ A D : List Operate,
      (Manager.Run env sched s).accepted = s.accepted ++ A ∧
        (Manager.Run env sched s).dispatched = s.dispatched ++ D ∧
        s.m.operateChannel ++ A = D ++ (Manager.Run env sched s).m.operateChannel := by
  induction sched with
  | nil => intro s; exact ⟨[], [], by simp [Manager.Run]⟩
  | cons tk t ih =>
    intro s
    cases tk with
    | done => exact ⟨[], [], by simp [Manager.Run]⟩
    | receive =>
      cases hch : s.m.operateChannel with
      | nil =>
        have hr : Manager.Run env (.receive :: t) s = Manager.Run env t s := by
          simp [Manager.Run, hch]
        obtain ⟨A, D, h1, h2, h3⟩ := ih s
        rw [hch] at h3
        exact ⟨A, D, by rw [hr]; exact h1, by rw [hr]; exact h2, by rw [hr]; exact h3⟩
      | cons c rest =>
        have hr : Manager.Run env (.receive :: t) s = Manager.Run env t
            { s with
              m := (Manager.handlerOperate env c { s.m with operateChannel := rest } s.w).1,
              w := (Manager.handlerOperate env c { s.m with operateChannel := rest } s.w).2,
              dispatched := s.dispatched ++ [c] } := by
          simp [Manager.Run, hch]
        obtain ⟨A, D, h1, h2, h3⟩ := ih
          { s with
            m := (Manager.handlerOperate env c { s.m with operateChannel := rest } s.w).1,
            w := (Manager.handlerOperate env c { s.m with operateChannel := rest } s.w).2,
            dispatched := s.dispatched ++ [c] }
        rw [← hr] at h1 h2 h3
        have hco : (Manager.handlerOperate env c { s.m with operateChannel := rest }
            s.w).1.operateChannel = rest := handlerOperate_keeps_channel env c _ s.w
        simp only [hco] at h3
        refine ⟨A, c :: D, h1, ?_, ?_⟩
        · rw [h2]; simp
        · simpa using h3
    | operate c tf =>
      cases ho : s.m.Operate c tf with
      | error e =>
        have hr : Manager.Run env (.operate c tf :: t) s = Manager.Run env t s := by
          simp [Manager.Run, ho]
        obtain ⟨A, D, h⟩ := ih s
        exact ⟨A, D, by rw [hr]; exact h⟩
      | ok m1 =>
        have hr : Manager.Run env (.operate c tf :: t) s =
            Manager.Run env t { s with m := m1, accepted := s.accepted ++ [c] } := by
          simp [Manager.Run, ho]
        obtain ⟨hm1, _⟩ := Operate_ok s.m m1 c tf ho
        obtain ⟨A, D, h1, h2, h3⟩ := ih { s with m := m1, accepted := s.accepted ++ [c] }
        rw [← hr] at h1 h2 h3
        simp only [hm1] at h3
        refine ⟨c :: A, D, ?_, h2, ?_⟩
        · rw [h1]; simp
        · simpa using h3
    | escalate i =>
      cases he : s.w.escalations.get? i with
      | none =>
        have hr : Manager.Run env (.escalate i :: t) s = Manager.Run env t s := by
          simp only [Manager.Run, he]
        obtain ⟨A, D, h⟩ := ih s
        exact ⟨A, D, by rw [hr]; exact h⟩
      | some e =>
        cases hp : s.m.processes e.uuid with
        | none =>
          have hr : Manager.Run env (.escalate i :: t) s = Manager.Run env t
              { s with
                w := (e.object.signal env SIGKILL
                  { s.w with escalations := s.w.escalations.eraseIdx i }).2 } := by
            simp only [Manager.Run, he, hp]
          obtain ⟨A, D, h⟩ := ih
            { s with
              w := (e.object.signal env SIGKILL
                { s.w with escalations := s.w.escalations.eraseIdx i }).2 }
          exact ⟨A, D, by rw [hr]; exact h⟩
        | some p =>
          have hr : Manager.Run env (.escalate i :: t) s = Manager.Run env t
              { s with
                m := s.m.write e.uuid
                  (p.signal env SIGKILL { s.w with escalations := s.w.escalations.eraseIdx i }).1,
                w := (p.signal env SIGKILL
                  { s.w with escalations := s.w.escalations.eraseIdx i }).2 } := by
            simp only [Manager.Run, he, hp]
          obtain ⟨A, D, h⟩ := ih
            { s with
              m := s.m.write e.uuid
                (p.signal env SIGKILL { s.w with escalations := s.w.escalations.eraseIdx i }).1,
              w := (p.signal env SIGKILL
                { s.w with escalations := s.w.escalations.eraseIdx i }).2 }
          exact ⟨A, D, by rw [hr]; exact h⟩

/-- C11 (the code at the failing input): Stop with a grace period of zero and
then Signal with signal 1 are accepted for the running process `u1` (pid 103),
and the goroutine of `Manager.do` takes its timer branch.  The loop receives the
two commands in the order of their submission; when the dispatch of Stop has
returned, its goroutine is still to call `failed`; the second command is
dispatched, and the kill of the Stop is delivered after it: the signals arrive
in the order SIGTERM, signal 1, SIGKILL, and so do the events in the journal. -/
theorem C11_escalation_after_the_next_dispatch :
    (Manager.Run demoEnvLater demoTwoCommands
        ⟨demoRunning.1, demoRunning.2, [], []⟩).accepted =
        [.Stop ⟨"u1", 0, false⟩, .Signal ⟨"u1", 1⟩] ∧
      (Manager.Run demoEnvLater demoTwoCommands
        ⟨demoRunning.1, demoRunning.2, [], []⟩).dispatched =
        [.Stop ⟨"u1", 0, false⟩, .Signal ⟨"u1", 1⟩] ∧
      (demoRunning.1.handlerOperate demoEnvLater (.Stop ⟨"u1", 0, false⟩)
        demoRunning.2).2.trace = demoRunning.2.trace ++ [.signal 103 SIGTERM true] ∧
      (demoRunning.1.handlerOperate demoEnvLater (.Stop ⟨"u1", 0, false⟩)
        demoRunning.2).2.escalations.map (fun e => e.uuid) = ["u1"] ∧
      (Manager.Run demoEnvLater demoTwoCommands
        ⟨demoRunning.1, demoRunning.2, [], []⟩).w.trace =
        demoRunning.2.trace ++ [.signal 103 SIGTERM true, .signal 103 1 true] ∧
      (Manager.Run demoEnvLater (demoTwoCommands ++ [.escalate 0])
        ⟨demoRunning.1, demoRunning.2, [], []⟩).w.trace =
        demoRunning.2.trace ++
          [.signal 103 SIGTERM true, .signal 103 1 true, .signal 103 SIGKILL true] ∧
      ((Manager.Run demoEnvLater (demoTwoCommands ++ [.escalate 0])
        ⟨demoRunning.1, demoRunning.2, [], []⟩).m.processes "u1").map
          (fun p => (p.events.elems.filterMap id).map (fun e => e.message)) =
        some ["process: u1, open file: [/tmp/log] success",
              "process: u1, start success, pid: 103",
              "process: u1, signal 15 success, pid: 103",
              "process: u1, signal 1 success, pid: 103",
              "process: u1, signal 9 success, pid: 103"] := by
  decide

end process
